/-
Verification of the resilient multi-backend request pipeline of the
ai-reviewer-tool repository: provider resolution and fallback
(src/llm_provider.py), chunking and chunk-result reconciliation
(src/tools.py), response normalization (src/tools.py), the static
fallback analyzers (src/tools.py and src/agents.py).

Python strings are modelled as `List Char`; Python `None`-able values as
`Option`; exceptions as `Except` or `Option` results.  External
collaborators (the network clients, `json.loads`, the Python `compile`
builtin) are modelled as explicit oracle parameters, so theorems
quantify over every behaviour of those collaborators.
-/
import Mathlib

set_option maxRecDepth 4000

/-! ## Basic string model -/

/-- Convert a Lean string literal to the `List Char` model of Python strings. -/
def strC (s : String) : List Char := s.data

/-- Python `str.lower()` (ASCII in all relevant cases). -/
def lowerC (s : List Char) : List Char := s.map Char.toLower

/-- Python substring membership `need in hay`. -/
def listContains (hay need : List Char) : Bool :=
  need.isPrefixOf hay ||
    match hay with
    | [] => false
    | _ :: t => listContains t need

/-- Python `len(line) // 4`, the fixed token estimate used by `chunk_code`
(src/tools.py line 74). -/
def tokens (l : List Char) : Nat := l.length / 4

/-- Python `text.split('\n')`. -/
def splitOnNl : List Char → List (List Char)
  | [] => [[]]
  | c :: rest =>
    match splitOnNl rest with
    | [] => [[c]]
    | l :: ls => if c = '\n' then [] :: l :: ls else (c :: l) :: ls

/-- Python `'\n'.join(lines)`. -/
def joinNl : List (List Char) → List Char
  | [] => []
  | l :: ls =>
    match ls with
    | [] => l
    | _ :: _ => l ++ '\n' :: joinNl ls

/-- Python whitespace characters stripped by `str.strip()`. -/
def isPySpace (c : Char) : Bool :=
  c = ' ' || c = '\t' || c = '\n' || c = '\r' || c = '\x0b' || c = '\x0c'

/-- Python `str.strip()`. -/
def stripWS (l : List Char) : List Char :=
  ((l.dropWhile isPySpace).reverse.dropWhile isPySpace).reverse

/-! ## Provider Resolver (src/llm_provider.py)

The network clients are modelled by an oracle mapping a model
identifier to the outcome of constructing the client and issuing the
liveness probe `llm.invoke("Test")`.  `temperature` and the prompt text
are irrelevant to control flow and are omitted. -/

/-- Outcome of one model-variant attempt: the client constructor raises,
the probe raises, the probe returns an empty (falsy) reply, or the probe
returns a non-empty reply. -/
inductive ModelOutcome where
  | ctorRaises (msg : List Char)
  | probeRaises (msg : List Char)
  | emptyReply
  | okReply
deriving DecidableEq

/-- Result of one provider's `_try_*` function: the model variants whose
try-iteration was entered, the number of network probe calls made, and
either the committed provider name or the exception message raised. -/
structure TryRun where
  attempted : List (List Char)
  calls : Nat
  result : Except (List Char) (List Char)

/-- The quota/rate-limit classification of the spec (and of
`_setup_llm`, src/llm_provider.py line 81): error text contains "429",
"quota" or "rate" (the latter two case-insensitively). -/
def quotaClassified (msg : List Char) : Bool :=
  listContains msg (strC "429") || listContains (lowerC msg) (strC "quota") ||
    listContains (lowerC msg) (strC "rate")

/-- The classification used inside `_try_google_genai`
(src/llm_provider.py lines 185 and 195): the spec's signals plus
"ResourceExhausted". -/
def googleQuotaClassified (msg : List Char) : Bool :=
  listContains msg (strC "429") || listContains (lowerC msg) (strC "quota") ||
    listContains (lowerC msg) (strC "rate") || listContains msg (strC "ResourceExhausted")

/-- Model identifiers tried by `_try_google_genai` (lines 160-165). -/
def googleModels : List (List Char) :=
  [strC "gemini-2.5-flash-preview-05-20", strC "gemini-1.5-flash",
   strC "gemini-1.5-pro", strC "gemini-pro"]

/-- Model identifiers tried by `_try_groq` (lines 267-272). -/
def groqModels : List (List Char) :=
  [strC "llama-3.1-8b-instant", strC "llama3-70b-8192",
   strC "llama3-8b-8192", strC "mixtral-8x7b-32768"]

/-- Model identifiers tried by `_try_openai` (lines 219-223). -/
def openaiModels : List (List Char) :=
  [strC "gpt-4o-mini", strC "gpt-4-turbo", strC "gpt-3.5-turbo"]

/-- The model loop of `_try_google_genai` (lines 167-202).  A probe or
constructor error that is quota-classified raises
`ValueError("Google Gemini quota exceeded: ...")`; a probe-time quota
error is raised inside the loop body's try and re-wrapped once more by
the enclosing `except` (lines 187 and 197) before propagating.  Any
other error advances to the next model; an empty probe reply also
advances.  Exhausting the list raises "All Google Gemini models failed". -/
def tryModelsGoogle (probe : List Char → ModelOutcome) : List (List Char) → TryRun
  | [] => ⟨[], 0, .error (strC "All Google Gemini models failed")⟩
  | m :: rest =>
    match probe m with
    | .ctorRaises msg =>
      if googleQuotaClassified msg then
        ⟨[m], 0, .error (strC "Google Gemini quota exceeded: " ++ msg)⟩
      else
        let r := tryModelsGoogle probe rest
        ⟨m :: r.attempted, r.calls, r.result⟩
    | .probeRaises msg =>
      if googleQuotaClassified msg then
        ⟨[m], 1, .error (strC "Google Gemini quota exceeded: " ++
          (strC "Google Gemini quota exceeded: " ++ msg))⟩
      else
        let r := tryModelsGoogle probe rest
        ⟨m :: r.attempted, 1 + r.calls, r.result⟩
    | .emptyReply =>
      let r := tryModelsGoogle probe rest
      ⟨m :: r.attempted, 1 + r.calls, r.result⟩
    | .okReply => ⟨[m], 1, .ok (strC "google_genai_" ++ m)⟩

/-- The model loop of `_try_groq` (lines 274-298): every error, quota or
not, advances to the next model variant (`continue`, lines 292 and 296);
exhausting the list raises "All Groq models failed". -/
def tryModelsGroq (probe : List Char → ModelOutcome) : List (List Char) → TryRun
  | [] => ⟨[], 0, .error (strC "All Groq models failed")⟩
  | m :: rest =>
    match probe m with
    | .ctorRaises _ =>
      let r := tryModelsGroq probe rest
      ⟨m :: r.attempted, r.calls, r.result⟩
    | .probeRaises _ =>
      let r := tryModelsGroq probe rest
      ⟨m :: r.attempted, 1 + r.calls, r.result⟩
    | .emptyReply =>
      let r := tryModelsGroq probe rest
      ⟨m :: r.attempted, 1 + r.calls, r.result⟩
    | .okReply => ⟨[m], 1, .ok (strC "groq_" ++ m)⟩

/-- The model loop of `_try_openai` (lines 225-248), identical in
structure to the Groq loop. -/
def tryModelsOpenai (probe : List Char → ModelOutcome) : List (List Char) → TryRun
  | [] => ⟨[], 0, .error (strC "All OpenAI models failed")⟩
  | m :: rest =>
    match probe m with
    | .ctorRaises _ =>
      let r := tryModelsOpenai probe rest
      ⟨m :: r.attempted, r.calls, r.result⟩
    | .probeRaises _ =>
      let r := tryModelsOpenai probe rest
      ⟨m :: r.attempted, 1 + r.calls, r.result⟩
    | .emptyReply =>
      let r := tryModelsOpenai probe rest
      ⟨m :: r.attempted, 1 + r.calls, r.result⟩
    | .okReply => ⟨[m], 1, .ok (strC "openai_" ++ m)⟩

/-- Import availability of the optional client libraries
(src/llm_provider.py lines 19-47). -/
structure Flags where
  huggingfaceAvailable : Bool
  googleAvailable : Bool
  openaiAvailable : Bool
  groqAvailable : Bool
  hfApiAvailable : Bool

/-- The credential environment variables each provider looks up. -/
structure EnvVars where
  hfToken : Option (List Char)
  googleKey : Option (List Char)
  groqKey : Option (List Char)
  openaiKey : Option (List Char)

/-- The environment with no provider credential set. -/
def noCredEnv : EnvVars := ⟨none, none, none, none⟩

/-- `_test_huggingface_token` (lines 89-106): returns whether the token
validated, paired with the number of network calls made.  The
`list_models` call is the oracle `listModelsOk`; a raised exception and
a failed validation are merged, both return `False`. -/
def testHuggingfaceToken (flags : Flags) (env : EnvVars) (listModelsOk : Bool) : Bool × Nat :=
  if !flags.hfApiAvailable then (false, 0)
  else
    match env.hfToken with
    | none => (false, 0)
    | some _ => (listModelsOk, 1)

/-- `_try_huggingface` (lines 108-147): availability check, credential
check, token validation, then one probe of the configured model. -/
def tryHuggingface (flags : Flags) (env : EnvVars) (cfgModel : List Char)
    (listModelsOk : Bool) (probe : ModelOutcome) : TryRun :=
  if !flags.huggingfaceAvailable then
    ⟨[], 0, .error (strC "langchain_huggingface not available")⟩
  else
    match env.hfToken with
    | none => ⟨[], 0, .error (strC "HUGGINGFACEHUB_API_TOKEN not set")⟩
    | some _ =>
      let t := testHuggingfaceToken flags env listModelsOk
      if !t.1 then ⟨[], t.2, .error (strC "HuggingFace token lacks proper permissions")⟩
      else
        match probe with
        | .ctorRaises msg => ⟨[cfgModel], t.2, .error msg⟩
        | .probeRaises msg =>
          ⟨[cfgModel], t.2 + 1, .error (strC "HuggingFace inference failed: " ++ msg)⟩
        | .emptyReply =>
          ⟨[cfgModel], t.2 + 1, .error (strC "HuggingFace inference failed: " ++
            strC "Empty response from HuggingFace")⟩
        | .okReply => ⟨[cfgModel], t.2 + 1, .ok (strC "huggingface")⟩

/-- `_try_google_genai` (lines 149-206): availability check, credential
check, then the model loop. -/
def tryGoogleProvider (flags : Flags) (env : EnvVars)
    (probe : List Char → ModelOutcome) : TryRun :=
  if !flags.googleAvailable then
    ⟨[], 0, .error (strC "langchain_google_genai not available")⟩
  else
    match env.googleKey with
    | none => ⟨[], 0, .error (strC "GOOGLE_API_KEY not set")⟩
    | some _ => tryModelsGoogle probe googleModels

/-- `_try_groq` (lines 254-302). -/
def tryGroqProvider (flags : Flags) (env : EnvVars)
    (probe : List Char → ModelOutcome) : TryRun :=
  if !flags.groqAvailable then
    ⟨[], 0, .error (strC "langchain_groq not available")⟩
  else
    match env.groqKey with
    | none => ⟨[], 0, .error (strC "GROQ_API_KEY not set")⟩
    | some _ => tryModelsGroq probe groqModels

/-- `_try_openai` (lines 208-252). -/
def tryOpenaiProvider (flags : Flags) (env : EnvVars)
    (probe : List Char → ModelOutcome) : TryRun :=
  if !flags.openaiAvailable then
    ⟨[], 0, .error (strC "langchain_openai not available")⟩
  else
    match env.openaiKey with
    | none => ⟨[], 0, .error (strC "OPENAI_API_KEY not set")⟩
    | some _ => tryModelsOpenai probe openaiModels

/-- `_create_fallback_llm` (lines 304-325): always succeeds, no network,
sets `current_provider = "fallback"`. -/
def fallbackRun : TryRun := ⟨[], 0, .ok (strC "fallback")⟩

/-- The provider loop of `_setup_llm` (lines 71-87): each provider's
exception is caught and the loop advances; the first provider returning
a client commits.  Returns the committed `current_provider` and the
total number of network probe calls made.  (The `[]` case is the dead
line 86 of the source: it also commits to the fallback.) -/
def runChain : List TryRun → List Char × Nat
  | [] => (strC "fallback", 0)
  | r :: rest =>
    match r.result with
    | .ok name => (name, r.calls)
    | .error _ => let p := runChain rest; (p.1, r.calls + p.2)

/-- `_setup_llm` (lines 61-87): the fixed chain HuggingFace, Google
Gemini, Groq, OpenAI, Fallback. -/
def setupLLM (flags : Flags) (env : EnvVars) (cfgModel : List Char) (listModelsOk : Bool)
    (hfProbe : ModelOutcome) (gProbe qProbe oProbe : List Char → ModelOutcome) :
    List Char × Nat :=
  runChain [tryHuggingface flags env cfgModel listModelsOk hfProbe,
            tryGoogleProvider flags env gProbe,
            tryGroqProvider flags env qProbe,
            tryOpenaiProvider flags env oProbe,
            fallbackRun]

/-- `get_provider_info` (lines 363-369). -/
structure ProviderInfo where
  provider : List Char
  available : Bool
  fallbackMode : Bool
deriving DecidableEq

/-- `get_provider_info` on the committed provider name; `self.llm` is
never `None` after `_setup_llm`, so `available` is true. -/
def getProviderInfo (currentProvider : List Char) : ProviderInfo :=
  ⟨currentProvider, true, currentProvider == strC "fallback"⟩

/-! ## JSON values and Python dict lookups (for src/tools.py) -/

/-- Structured data as produced by `json.loads`: Python dicts are
association lists preserving key order. -/
inductive Json where
  | str (s : List Char)
  | num (q : ℚ)
  | jbool (b : Bool)
  | null
  | arr (elems : List Json)
  | obj (entries : List (List Char × Json))

instance : Inhabited Json := ⟨Json.null⟩

/-- Python `d[key]` / `key in d` on a dict: first (only) binding. -/
def lookupKV : List (List Char × Json) → List Char → Option Json
  | [], _ => none
  | (k, v) :: t, key => if k = key then some v else lookupKV t key

/-- Python `d[key] = v` on a dict whose key already exists. -/
def updateKV (entries : List (List Char × Json)) (key : List Char) (v : Json) :
    List (List Char × Json) :=
  entries.map (fun e => if e.1 = key then (e.1, v) else e)

/-- An arbitrary Python value, for reply fields that need not be
strings: either a string or some other object with its `str()` text. -/
inductive PyVal where
  | vstr (s : List Char)
  | vother (repr : List Char)
deriving DecidableEq

/-! ## A regex engine for the fixed pattern tables of `_fallback_analysis`

`re.search(pattern, code, re.IGNORECASE)` is used on about twenty fixed
patterns built from literals, `.`, `.*`, `[^(]*`, `[^)]*`, `\s*` and a
final `$`.  The engine below implements exactly those constructs with
Python semantics: `.` matches any character except a newline, `\s`
matches Python whitespace, `$` matches at the end of the text or just
before a trailing newline, and matching is case-insensitive. -/

/-- One regex atom. -/
inductive Atom where
  | lit (c : Char)
  | dot
  | notCh (cs : List Char)
  | wsp
deriving DecidableEq

/-- An atom, or a starred atom. -/
inductive RTok where
  | one (a : Atom)
  | star (a : Atom)
deriving DecidableEq

/-- A pattern: a token sequence, optionally anchored at the end by `$`. -/
structure Pattern where
  toks : List RTok
  anchorEnd : Bool

/-- Case-insensitive single-character match. -/
def atomMatch (a : Atom) (c : Char) : Bool :=
  match a with
  | .lit p => p.toLower == c.toLower
  | .dot => !(c == '\n')
  | .notCh cs => !(cs.any (fun p => p.toLower == c.toLower))
  | .wsp => isPySpace c

/-- Backtracking matcher at a fixed start position, with a fuel
parameter for structural recursion.  Every recursive call shrinks
either the text or the token list, so any fuel above
`(|s| + 1) * (|toks| + 1)` can never run out. -/
def matchToksF (anchor : Bool) : Nat → List RTok → List Char → Bool
  | 0, _, _ => false
  | _ + 1, [], s => if anchor then s.isEmpty || s == ['\n'] else true
  | _ + 1, .one _ :: _, [] => false
  | f + 1, .one a :: rest, c :: t => atomMatch a c && matchToksF anchor f rest t
  | f + 1, .star a :: rest, s =>
    matchToksF anchor f rest s ||
      (match s with
       | [] => false
       | c :: t => atomMatch a c && matchToksF anchor f (.star a :: rest) t)

/-- Backtracking matcher at a fixed start position. -/
def matchToks (anchor : Bool) (toksL : List RTok) (s : List Char) : Bool :=
  matchToksF anchor ((s.length + 1) * (toksL.length + 1) + 1) toksL s

/-- `re.search`: try to match at every start position. -/
def searchFrom (p : Pattern) : List Char → Bool
  | [] => matchToks p.anchorEnd p.toks []
  | c :: t => matchToks p.anchorEnd p.toks (c :: t) || searchFrom p t

/-- `re.search(pattern, code, re.IGNORECASE) is not None`. -/
def reSearch (p : Pattern) (s : List Char) : Bool := searchFrom p s

/-- Literal characters of a pattern. -/
def lits (s : String) : List RTok := s.data.map (fun c => RTok.one (Atom.lit c))

/-- The security pattern table of `_fallback_analysis`
(src/tools.py lines 645-656), with each regex translated construct by
construct. -/
def securityPatternTable : List (Pattern × List Char) :=
  [(⟨lits "subprocess" ++ [.one .dot] ++ lits "call", false⟩, strC "Command injection vulnerability"),
   (⟨lits "shell=True", false⟩, strC "Shell injection risk"),
   (⟨lits "eval(", false⟩, strC "Code injection vulnerability"),
   (⟨lits "exec(", false⟩, strC "Code execution vulnerability"),
   (⟨lits "open(" ++ [.star .dot] ++ lits "input", false⟩, strC "Path traversal vulnerability"),
   (⟨lits "input(", false⟩, strC "Unvalidated user input"),
   (⟨lits "raw_input(", false⟩, strC "Unvalidated user input (Python 2)"),
   (⟨lits "subprocess.", false⟩, strC "Subprocess usage - potential security risk"),
   (⟨lits "execute_command", false⟩, strC "Function name suggests command execution"),
   (⟨lits "read_file", false⟩, strC "Function name suggests file reading without validation")]

/-- The performance pattern table (src/tools.py lines 659-668). -/
def performancePatternTable : List (Pattern × List Char) :=
  [(⟨lits "result += str(", false⟩, strC "Inefficient string concatenation"),
   (⟨lits "for" ++ [.star .dot] ++ lits "in range(len(", false⟩, strC "Use enumerate instead"),
   (⟨lits "for" ++ [.star .dot] ++ lits "for" ++ [.star .dot] ++ lits "in" ++
       [.star .dot] ++ lits "range", false⟩, strC "Nested loops may be inefficient"),
   (⟨lits ".append(" ++ [.star .dot] ++ lits ")", false⟩, strC "Consider list comprehension"),
   (⟨lits "list(range(", false⟩, strC "Consider direct iteration"),
   (⟨lits "for i in range(100):" ++ [.star .wsp, .one (.lit '\n'), .star .wsp] ++
       lits "for j in range(100):" ++ [.star .wsp, .one (.lit '\n'), .star .wsp] ++
       lits "for k in range(100)", false⟩, strC "Triple nested loops - O(n³) complexity"),
   (⟨lits "while True:" ++ [.star .wsp, .one (.lit '\n'), .star .wsp] ++
       lits "data.append", false⟩, strC "Potential infinite loop with memory leak"),
   (⟨lits "inefficient_function", false⟩, strC "Function name suggests performance issues")]

/-- The maintainability pattern table, called `syntax_patterns` in the
source (src/tools.py lines 671-677). -/
def maintainabilityPatternTable : List (Pattern × List Char) :=
  [(⟨lits "def " ++ [.star (.notCh ['('])] ++ lits "(" ++ [.star (.notCh [')'])] ++
       lits "):" ++ [.star .wsp], true⟩, strC "Function missing docstring"),
   (⟨lits "class " ++ [.star (.notCh ['('])] ++ lits "(" ++ [.star (.notCh [')'])] ++
       lits "):" ++ [.star .wsp], true⟩, strC "Class missing docstring"),
   (⟨lits "import *", false⟩, strC "Wildcard import - specify imports explicitly"),
   (⟨lits "except:", false⟩, strC "Bare except clause - specify exception type"),
   (⟨lits "print" ++ [.star .wsp] ++ lits "(", false⟩,
     strC "Consider using logging instead of print")]

/-! ## Static fallback analysis, `_fallback_analysis` (src/tools.py 636-747) -/

/-- Decimal rendering of a count, for the f-string summaries. -/
def natToChars (n : Nat) : List Char := (toString n).data

/-- One pattern-table issue dict of `_fallback_analysis` (key order as in
the source: type, severity, description, line, suggestion, with the
suggestion prefix applied to the lowercased description). -/
def mkFbIssue (ty sev desc sugPre : List Char) : Json :=
  .obj [(strC "type", .str ty), (strC "severity", .str sev),
        (strC "description", .str desc), (strC "line", .num 1),
        (strC "suggestion", .str (sugPre ++ lowerC desc))]

/-- The issue list produced by scanning one pattern table. -/
def patternIssues (tbl : List (Pattern × List Char)) (ty sev sugPre code : List Char) :
    List Json :=
  tbl.filterMap (fun pd => if reSearch pd.1 code then some (mkFbIssue ty sev pd.2 sugPre) else none)

/-- Outcome of the Python `compile` builtin on the input (an external
collaborator, modelled as an oracle): success, a `SyntaxError` carrying
`getattr(e, 'lineno', 1)`, or another compilation exception. -/
inductive CompileOutcome where
  | ok
  | synErr (msg : List Char) (lineno : Json)
  | otherErr (msg : List Char)

/-- `_check_syntax_errors` (src/tools.py 750-776): only `.py` paths are
compiled. -/
def checkCompileErrors (pyCompile : List Char → CompileOutcome) (code path : List Char) :
    List Json :=
  if (strC ".py").isSuffixOf path then
    match pyCompile code with
    | .ok => []
    | .synErr msg lineno =>
      [.obj [(strC "type", .str (strC "syntax")), (strC "severity", .str (strC "critical")),
             (strC "description", .str (strC "Syntax error: " ++ msg)),
             (strC "line", lineno),
             (strC "suggestion", .str (strC "Fix the syntax error in the code"))]]
    | .otherErr msg =>
      [.obj [(strC "type", .str (strC "syntax")), (strC "severity", .str (strC "critical")),
             (strC "description", .str (strC "Code compilation error: " ++ msg)),
             (strC "line", .num 1),
             (strC "suggestion", .str (strC "Fix the compilation error in the code"))]]
  else []

/-- The two fixed best-practice issues appended by `_fallback_analysis`
(lines 718-733) and by `analyze_code_with_chunking` (lines 154-169).
Key order in the source: type, severity, line, description, suggestion. -/
def productionStandards : List Json :=
  [.obj [(strC "type", .str (strC "best_practice")), (strC "severity", .str (strC "medium")),
         (strC "line", .num 0),
         (strC "description", .str (strC "Follow language-specific style guidelines")),
         (strC "suggestion", .str (strC "Use appropriate linters and formatters for your programming language. Follow established style guides and naming conventions. Configure automated formatting tools to maintain consistency."))],
   .obj [(strC "type", .str (strC "best_practice")), (strC "severity", .str (strC "medium")),
         (strC "line", .num 0),
         (strC "description", .str (strC "Implement proper error handling patterns")),
         (strC "suggestion", .str (strC "Use language-specific exception handling patterns. Avoid catching all exceptions unless necessary. Create custom exception classes for domain-specific errors. Use appropriate error handling mechanisms for your language."))]]

/-- Python `i['type'] == ty` on an issue dict. -/
def issueTypeIs (j : Json) (ty : List Char) : Bool :=
  match j with
  | .obj kvs =>
    match lookupKV kvs (strC "type") with
    | some (.str s) => s == ty
    | _ => false
  | _ => false

/-- Python `i['severity'] == sev` on an issue dict. -/
def issueSeverityIs (j : Json) (sev : List Char) : Bool :=
  match j with
  | .obj kvs =>
    match lookupKV kvs (strC "severity") with
    | some (.str s) => s == sev
    | _ => false
  | _ => false

/-- Python `[line for line in lines if line.strip()]` count. -/
def nonEmptyLineCount (code : List Char) : Nat :=
  ((splitOnNl code).filter (fun l => !(stripWS l).isEmpty)).length

/-- The analysis-result dict shared by `_analyze_single_chunk`,
`_parse_plain_text_response`, `_fallback_analysis` and
`analyze_code_with_chunking`; `_fallback_analysis` has no summary key. -/
structure AnalysisOut where
  issues : Json
  metrics : Json
  filePath : List Char
  analysisType : List Char
  summary : Option Json

/-- `_fallback_analysis` (src/tools.py 636-747): compile check, then the
three pattern tables in source order, then the two best-practice
issues; metrics computed from the final issue list (the best-practice
issues were already appended when `len(issues)` is read at line 741). -/
def fallbackAnalysis (pyCompile : List Char → CompileOutcome) (code path : List Char) :
    AnalysisOut :=
  let issues0 := checkCompileErrors pyCompile code path
    ++ patternIssues securityPatternTable (strC "security") (strC "high") (strC "Review and fix ") code
    ++ patternIssues performancePatternTable (strC "performance") (strC "medium") (strC "Optimize ") code
    ++ patternIssues maintainabilityPatternTable (strC "maintainability") (strC "low") (strC "Improve ") code
  let complexity := nonEmptyLineCount code
  let issues := issues0 ++ productionStandards
  { issues := .arr issues
    metrics := .obj [
      (strC "complexity_score", .num ((min 10 (max 1 (complexity / 10)) : Nat) : ℚ)),
      (strC "maintainability_score",
        .num (if issues.isEmpty then 5 else ((max 1 (5 - (issues.length : ℤ)) : ℤ) : ℚ))),
      (strC "security_score",
        .num (if (issues.filter (fun i => issueTypeIs i (strC "security"))).isEmpty then 5 else 3)),
      (strC "performance_score",
        .num (if (issues.filter (fun i => issueTypeIs i (strC "performance"))).isEmpty then 5 else 4))]
    filePath := path
    analysisType := strC "fallback_analysis"
    summary := none }

/-! ## Plain-text response parsing (src/tools.py 574-633 and 779-835) -/

/-- Python `any(keyword in s for keyword in ks)` (the caller lowercases `s`). -/
def containsAnyKeyword (ks : List (List Char)) (s : List Char) : Bool :=
  ks.any (fun k => listContains s k)

/-- Keyword set of the JSON-failure check in `_analyze_single_chunk`
(lines 243 and 253). -/
def jsonFailKeywords : List (List Char) :=
  [strC "security", strC "vulnerability", strC "performance", strC "issue",
   strC "problem", strC "error", strC "bug"]

/-- Keyword set of `_parse_plain_text_response` (line 590). -/
def reviewKeywords : List (List Char) :=
  [strC "issue", strC "problem", strC "error", strC "bug",
   strC "vulnerability", strC "security", strC "performance"]

/-- Keyword set of `_parse_security_plain_text_response` (line 795). -/
def securityKeywords : List (List Char) :=
  [strC "vulnerability", strC "security", strC "injection", strC "xss",
   strC "csrf", strC "authentication", strC "authorization", strC "encryption"]

/-- Python `line.split(':', 1)[1]`, assuming a colon is present. -/
def afterFirstColon : List Char → List Char
  | [] => []
  | c :: t => if c = ':' then t else afterFirstColon t

/-- The label value attached to the current issue:
`line.split(':', 1)[1].strip() if ':' in line else line`. -/
def labelValue (line : List Char) : List Char :=
  if listContains line (strC ":") then stripWS (afterFirstColon line) else line

/-- The line-oriented heuristic extractor shared (in shape) by the three
plain-text parsers: a stripped non-empty line containing a keyword
flushes the current issue and starts a new one; a line starting with a
recognized label updates the current issue's label field. -/
def plainTextLoop (keywords labels : List (List Char)) (mkIssue : List Char → Json)
    (setLabel : Json → List Char → Json) : List (List Char) → Option Json → List Json
  | [], cur => match cur with | some c => [c] | none => []
  | raw :: rest, cur =>
    let line := stripWS raw
    if line.isEmpty then plainTextLoop keywords labels mkIssue setLabel rest cur
    else if containsAnyKeyword keywords (lowerC line) then
      (match cur with | some c => [c] | none => []) ++
        plainTextLoop keywords labels mkIssue setLabel rest (some (mkIssue line))
    else
      match cur with
      | some c =>
        if labels.any (fun lb => lb.isPrefixOf line) then
          plainTextLoop keywords labels mkIssue setLabel rest (some (setLabel c (labelValue line)))
        else plainTextLoop keywords labels mkIssue setLabel rest (some c)
      | none => plainTextLoop keywords labels mkIssue setLabel rest none

/-- Python `text[:200] + '...' if len(text) > 200 else text`. -/
def truncate200 (t : List Char) : List Char :=
  if 200 < t.length then t.take 200 ++ strC "..." else t

/-- The default metrics dict (all scores 5, src/tools.py 231-236 and
620-625). -/
def defaultMetricsJson : Json :=
  .obj [(strC "complexity_score", .num 5), (strC "maintainability_score", .num 5),
        (strC "security_score", .num 5), (strC "performance_score", .num 5)]

/-- The fresh issue dict of `_parse_plain_text_response` (lines 594-600). -/
def mkGeneralIssue (line : List Char) : Json :=
  .obj [(strC "type", .str (strC "general")), (strC "severity", .str (strC "medium")),
        (strC "line", .num 1), (strC "description", .str line),
        (strC "suggestion", .str (strC ""))]

/-- Field update on an issue dict. -/
def setIssueField (field : List Char) (j : Json) (v : List Char) : Json :=
  match j with
  | .obj kvs => .obj (updateKV kvs field (.str v))
  | other => other

/-- `_parse_plain_text_response` (src/tools.py 574-633). -/
def parsePlainText (responseText path : List Char) : AnalysisOut :=
  let issues0 := plainTextLoop reviewKeywords
    [strC "suggestion:", strC "fix:", strC "recommendation:"]
    mkGeneralIssue (setIssueField (strC "suggestion")) (splitOnNl responseText) none
  let issues := if issues0.isEmpty then
    [.obj [(strC "type", .str (strC "analysis")), (strC "severity", .str (strC "info")),
           (strC "line", .num 1),
           (strC "description", .str (strC "Code analysis completed")),
           (strC "suggestion", .str (strC "Review the analysis results above"))]]
    else issues0
  { issues := .arr issues
    metrics := defaultMetricsJson
    filePath := path
    analysisType := strC "llm_analysis_plain_text"
    summary := some (.str (truncate200 responseText)) }

/-! ## Reply shapes and `_analyze_single_chunk` (src/tools.py 182-267) -/

/-- A non-`None` raw reply as inspected by the normalizers: a string, a
dict (whose `content` entry, when present, may be any value), or some
other object with its `str()` text. -/
inductive RawReply where
  | strReply (s : List Char)
  | dictReply (content : Option PyVal) (repr : List Char)
  | otherReply (repr : List Char)

/-- The `response_text` reduction (lines 213-218): `none` models the
`TypeError`/`AttributeError` raised further down when the dict's
`content` entry is not a string (`response_text.find` then fails and the
outer `except` of the caller degrades to the fallback analysis). -/
def respTextOf : RawReply → Option (List Char)
  | .strReply s => some s
  | .dictReply (some (.vstr s)) _ => some s
  | .dictReply (some (.vother _)) _ => none
  | .dictReply none r => some r
  | .otherReply r => some r

/-- Python `text.find(c)`: index of the first occurrence. -/
def findCharIdx (c : Char) : List Char → Option Nat
  | [] => none
  | x :: t => if x = c then some 0 else (findCharIdx c t).map (· + 1)

/-- Python `text.rfind(c)`: index of the last occurrence. -/
def rfindCharIdx (c : Char) (s : List Char) : Option Nat :=
  (findCharIdx c s.reverse).map (fun i => s.length - 1 - i)

/-- Lines 221-225: `json_start = text.find('{')`,
`json_end = text.rfind('}') + 1`, and the slice `text[json_start:json_end]`
when `json_start != -1 and json_end > json_start`. -/
def extractJsonSlice (t : List Char) : Option (List Char) :=
  match findCharIdx '{' t, rfindCharIdx '}' t with
  | some i, some j => if i < j + 1 then some ((t.drop i).take (j + 1 - i)) else none
  | some _, none => none
  | none, _ => none

/-- `_analyze_single_chunk` (src/tools.py 182-267).  `json.loads` is the
oracle `parse`; a parse result that is not a dict has no `.get` and the
raised `AttributeError` reaches the outer `except` (line 265), which
degrades to `_fallback_analysis`, as does a non-string `content` entry. -/
def analyzeSingleChunk (pyCompile : List Char → CompileOutcome)
    (parse : List Char → Option Json) (response : Option RawReply)
    (code path : List Char) : AnalysisOut :=
  match response with
  | none => fallbackAnalysis pyCompile code path
  | some r =>
    match respTextOf r with
    | none => fallbackAnalysis pyCompile code path
    | some t =>
      match extractJsonSlice t with
      | some js =>
        match parse js with
        | some (Json.obj kvs) =>
          { issues := (lookupKV kvs (strC "issues")).getD (.arr [])
            metrics := (lookupKV kvs (strC "metrics")).getD defaultMetricsJson
            filePath := path
            analysisType := strC "llm_analysis"
            summary := some ((lookupKV kvs (strC "summary")).getD
              (.str (strC "Analysis completed"))) }
        | some _ => fallbackAnalysis pyCompile code path
        | none =>
          if containsAnyKeyword jsonFailKeywords (lowerC t) then parsePlainText t path
          else fallbackAnalysis pyCompile code path
      | none =>
        if containsAnyKeyword jsonFailKeywords (lowerC t) then parsePlainText t path
        else fallbackAnalysis pyCompile code path

/-! ## Security normalization (src/tools.py 352-425, 779-877) -/

/-- The security-analysis result dict. -/
structure SecurityOut where
  securityIssues : Json
  overallSecurityScore : Json
  filePath : List Char
  analysisType : List Char
  recommendations : Json

/-- The fresh issue dict of `_parse_security_plain_text_response`
(lines 799-806). -/
def mkSecPlainIssue (line : List Char) : Json :=
  .obj [(strC "type", .str (strC "security")), (strC "severity", .str (strC "medium")),
        (strC "line", .num 1), (strC "description", .str line),
        (strC "cve_reference", .str (strC "")), (strC "mitigation", .str (strC ""))]

/-- `_parse_security_plain_text_response` (src/tools.py 779-835). -/
def parseSecurityPlainText (responseText path : List Char) : SecurityOut :=
  let issues0 := plainTextLoop securityKeywords
    [strC "mitigation:", strC "fix:", strC "solution:"]
    mkSecPlainIssue (setIssueField (strC "mitigation")) (splitOnNl responseText) none
  let issues := if issues0.isEmpty then
    [.obj [(strC "type", .str (strC "security_analysis")), (strC "severity", .str (strC "info")),
           (strC "line", .num 1),
           (strC "description", .str (strC "Security analysis completed")),
           (strC "cve_reference", .str (strC "")),
           (strC "mitigation", .str (strC "Review the security analysis results above"))]]
    else issues0
  { securityIssues := .arr issues
    overallSecurityScore := .num 5
    filePath := path
    analysisType := strC "llm_security_plain_text"
    recommendations := .arr [.str (truncate200 responseText)] }

/-- The security-pattern issue dict of `_fallback_security_analysis`
(lines 859-866). -/
def mkFbSecIssue (desc : List Char) : Json :=
  .obj [(strC "type", .str (strC "security")), (strC "severity", .str (strC "high")),
        (strC "description", .str desc), (strC "line", .num 1),
        (strC "cve_reference", .str (strC "")),
        (strC "mitigation", .str (strC "Review and fix " ++ lowerC desc))]

/-- `_fallback_security_analysis` (src/tools.py 838-877): same security
pattern table, different issue shape and scoring. -/
def fallbackSecurityAnalysis (code path : List Char) : SecurityOut :=
  let issues := securityPatternTable.filterMap
    (fun pd => if reSearch pd.1 code then some (mkFbSecIssue pd.2) else none)
  { securityIssues := .arr issues
    overallSecurityScore :=
      .num (if issues.isEmpty then 10 else ((max 1 (10 - (issues.length : ℤ)) : ℤ) : ℚ))
    filePath := path
    analysisType := strC "fallback_security"
    recommendations := .arr
      (if issues.isEmpty then [.str (strC "No security issues detected")]
       else [.str (strC "Found " ++ natToChars issues.length ++ strC " security issues")]) }

/-- Python `str(response)` when `response` is `None`. -/
def secResponseText : Option RawReply → Option (List Char)
  | none => some (strC "None")
  | some r => respTextOf r

/-- The response-parsing section of `analyze_security` (src/tools.py
384-421).  Unlike `_analyze_single_chunk` it never checks `response is
None`: a `None` reply is coerced by `str(response)` to the text "None"
(line 392) and, containing no brace and no keyword, ends in the
plain-text parser; a JSON parse failure goes straight to the plain-text
parser with no keyword gate (lines 410-417). -/
def analyzeSecurityNormalize (parse : List Char → Option Json)
    (response : Option RawReply) (code path : List Char) : SecurityOut :=
  match secResponseText response with
  | none => fallbackSecurityAnalysis code path
  | some t =>
    match extractJsonSlice t with
    | some js =>
      match parse js with
      | some (Json.obj kvs) =>
        { securityIssues := (lookupKV kvs (strC "security_issues")).getD (.arr [])
          overallSecurityScore := (lookupKV kvs (strC "overall_security_score")).getD (.num 5)
          filePath := path
          analysisType := strC "llm_security"
          recommendations := (lookupKV kvs (strC "recommendations")).getD (.arr []) }
      | some _ => fallbackSecurityAnalysis code path
      | none => parseSecurityPlainText t path
    | none => parseSecurityPlainText t path

/-! ## The agents-level fallback review, `_run_fallback_review`
(src/agents.py 213-346) -/

/-- An issue dict of `_run_fallback_review` (key order: type, severity,
description, line, suggestion, code_snippet). -/
def mkAgentIssue (ty sev desc : List Char) (line : Nat) (sug snippet : List Char) : Json :=
  .obj [(strC "type", .str ty), (strC "severity", .str sev),
        (strC "description", .str desc), (strC "line", .num line),
        (strC "suggestion", .str sug), (strC "code_snippet", .str snippet)]

/-- The per-line checks of `_run_fallback_review` (lines 228-302), in
source order, for the line with 1-based index `i`. -/
def agentLineIssues (i : Nat) (line : List Char) : List Json :=
  let lineLower := lowerC line
  (if listContains line (strC "eval(") then
    [mkAgentIssue (strC "security") (strC "critical")
      (strC "Use of eval() function detected - critical security risk") i
      (strC "Replace eval() with safer alternatives") (stripWS line)] else []) ++
  (if listContains line (strC "system(") then
    [mkAgentIssue (strC "security") (strC "critical")
      (strC "Command injection vulnerability detected") i
      (strC "Use proper input validation and sanitization") (stripWS line)] else []) ++
  (if listContains lineLower (strC "password") && listContains line (strC "=") then
    [mkAgentIssue (strC "security") (strC "high")
      (strC "Hardcoded password detected") i
      (strC "Use environment variables or secure configuration") (stripWS line)] else []) ++
  (if listContains lineLower (strC "api_key") && listContains line (strC "=") then
    [mkAgentIssue (strC "security") (strC "high")
      (strC "Hardcoded API key detected") i
      (strC "Use environment variables for sensitive data") (stripWS line)] else []) ++
  (if listContains line (strC "for ") && listContains line (strC " in ") &&
      listContains line (strC "for ") then
    [mkAgentIssue (strC "performance") (strC "medium")
      (strC "Nested loops detected - potential performance issue") i
      (strC "Consider optimizing nested loops or using more efficient algorithms")
      (stripWS line)] else []) ++
  (if listContains line (strC "+=") && listContains line (strC "\x22") then
    [mkAgentIssue (strC "performance") (strC "medium")
      (strC "Inefficient string concatenation detected") i
      (strC "Use string interpolation or join() method") (stripWS line)] else []) ++
  (if 120 < line.length then
    [mkAgentIssue (strC "maintainability") (strC "low")
      (strC "Line too long - affects readability") i
      (strC "Break long lines for better readability") (stripWS line)] else [])

/-- The whole-text checks of `_run_fallback_review` (lines 304-325). -/
def agentGlobalIssues (code : List Char) : List Json :=
  (if listContains code (strC "$") then
    [mkAgentIssue (strC "maintainability") (strC "medium")
      (strC "Global variables detected - poor practice") 1
      (strC "Avoid global variables, use proper encapsulation")
      (strC "Global variables found")] else []) ++
  (if listContains code (strC "class String") || listContains code (strC "class Array") then
    [mkAgentIssue (strC "maintainability") (strC "high")
      (strC "Monkey patching detected - dangerous practice") 1
      (strC "Avoid monkey patching, use proper inheritance or modules")
      (strC "Monkey patching found")] else [])

/-- 1-based enumeration, Python `enumerate(lines, 1)`. -/
def withIdxFrom (n : Nat) : List α → List (Nat × α)
  | [] => []
  | a :: t => (n, a) :: withIdxFrom (n + 1) t

/-- The result dict of `_run_fallback_review` (lines 338-346). -/
structure ReviewOut where
  filePath : List Char
  issues : List Json
  improvedCode : List Char
  metrics : Json
  summary : List Char

/-- `_run_fallback_review` (src/agents.py 213-346): per-line checks in
order, then the whole-text checks, then metrics from per-type counts.
`lines` is `[]` for empty input (`code.split('\n') if code else []`). -/
def runFallbackReview (code path : List Char) : ReviewOut :=
  let lines := if code.isEmpty then [] else splitOnNl code
  let issues := ((withIdxFrom 1 lines).map (fun p => agentLineIssues p.1 p.2)).flatten ++
    agentGlobalIssues code
  let secCount := (issues.filter (fun i => issueTypeIs i (strC "security"))).length
  let perfCount := (issues.filter (fun i => issueTypeIs i (strC "performance"))).length
  let maintCount := (issues.filter (fun i => issueTypeIs i (strC "maintainability"))).length
  { filePath := path
    issues := issues
    improvedCode := code
    metrics := .obj [
      (strC "complexity_score", .num ((min 10 (lines.length / 5) : Nat) : ℚ)),
      (strC "maintainability_score", .num ((max 1 (10 - (maintCount : ℤ)) : ℤ) : ℚ)),
      (strC "security_score", .num ((max 1 (10 - (secCount : ℤ) * 2) : ℤ) : ℚ)),
      (strC "performance_score", .num ((max 1 (10 - (perfCount : ℤ)) : ℤ) : ℚ))]
    summary := strC "Fallback analysis completed. Found " ++ natToChars issues.length ++
      strC " issues: " ++ natToChars secCount ++ strC " security, " ++
      natToChars perfCount ++ strC " performance, " ++
      natToChars maintCount ++ strC " maintainability." }

/-! ## Chunking Engine, `chunk_code` (src/tools.py 55-101) -/

/-- Total estimated token cost of a line list. -/
def sumTokens (ls : List (List Char)) : Nat := (ls.map tokens).sum

/-- The overlap-collection loop (lines 81-89), walking the closed
chunk's lines from the end and taking lines while the cumulative
estimate stays within the overlap budget (the input here is already
reversed). -/
def takeWhileBudget (budget : Nat) : Nat → List (List Char) → List (List Char)
  | _, [] => []
  | acc, l :: t =>
    if acc + tokens l ≤ budget then l :: takeWhileBudget budget (acc + tokens l) t else []

/-- `overlap_lines` seeded from the just-closed chunk. -/
def overlapLines (cur : List (List Char)) (budget : Nat) : List (List Char) :=
  (takeWhileBudget budget 0 cur.reverse).reverse

/-- The final value of the loop variable `line_tokens` after the overlap
loop: the source rebinds it at each step of the backwards walk
(`line_tokens = len(current_chunk[i]) // 4`, tools.py line 84), so after
the loop it holds the estimate of the last chunk line examined — the
first line, walking from the chunk's end, that no longer fits the
budget, or the chunk's first line when every line fits.  `lt0` is the
pre-loop value (the new line's estimate, set at line 74), kept only when
the chunk is empty and the loop body never runs. -/
def staleLineTokens (budget : Nat) : Nat → Nat → List (List Char) → Nat
  | _, lt0, [] => lt0
  | acc, _, l :: t =>
    if acc + tokens l ≤ budget then staleLineTokens budget (acc + tokens l) (tokens l) t
    else tokens l

/-- The rebound `line_tokens` left by the overlap walk over the
just-closed chunk (the walk runs from the chunk's end towards its
front, hence the reversal). -/
def staleTok (cur : List (List Char)) (budget lt0 : Nat) : Nat :=
  staleLineTokens budget 0 lt0 cur.reverse

/-- The main loop of `chunk_code` (lines 72-99), carrying the current
chunk's lines and estimated length, and the closed chunks (as line
lists; the source joins each chunk on close, which commutes with
collecting them and joining at the end).  On a close, the seeded length
is `overlap_length + line_tokens` (line 92) where `line_tokens` is the
value left behind by the overlap loop's rebinding (line 84), not the
new line's estimate — `staleTok` models exactly that. -/
def chunkAux (maxT ov : Nat) :
    List (List Char) → List (List Char) → Nat → List (List (List Char)) →
      List (List (List Char))
  | [], cur, _, chunks => chunks ++ (if cur.isEmpty then [] else [cur])
  | line :: rest, cur, curLen, chunks =>
    let lt := tokens line
    if maxT < curLen + lt ∧ cur ≠ [] then
      let ovl := overlapLines cur ov
      chunkAux maxT ov rest (ovl ++ [line]) (sumTokens ovl + staleTok cur ov lt)
        (chunks ++ [cur])
    else
      chunkAux maxT ov rest (cur ++ [line]) (curLen + lt) chunks

/-- The chunks of `chunk_code`, as line lists. -/
def chunkLines (code : List Char) (maxT ov : Nat) : List (List (List Char)) :=
  chunkAux maxT ov (splitOnNl code) [] 0 []

/-- `chunk_code` (src/tools.py 55-101): the loop's chunks joined on
newline, and `[code]` when the loop produced none (line 101). -/
def chunk_code (code : List Char) (maxT ov : Nat) : List (List Char) :=
  let cs := chunkLines code maxT ov
  if cs.isEmpty then [code] else cs.map joinNl

/-! ## Chunk-result reconciliation, `analyze_code_with_chunking`
(src/tools.py 104-179) -/

/-- `Option`-valued `List.map`: `none` models a propagating Python
exception in the loop being modelled. -/
def mapMOpt (f : α → Option β) : List α → Option (List β)
  | [] => some []
  | a :: t =>
    match f a, mapMOpt f t with
    | some b, some bt => some (b :: bt)
    | _, _ => none

/-- Python `m.get(key, 5)` followed by use as a number:
a missing key yields the default 5, a numeric value is used as is,
a bool is its numeric value, any other value makes the later `sum`
raise (`none`), as does a non-dict `m` (no `.get`). -/
def getMetricD (metrics : Json) (key : List Char) : Option ℚ :=
  match metrics with
  | .obj kvs =>
    match lookupKV kvs key with
    | none => some 5
    | some (.num q) => some q
    | some (.jbool b) => some (if b then 1 else 0)
    | some _ => none
  | _ => none

/-- Lines 137-139: `if 'line' in issue: issue['line'] += i * 800`.
A numeric (or bool) line value is offset; a present non-numeric line
value makes `+=` raise (`none`); an issue that is not a dict either
raises on indexing (`none`) or, for a string not containing "line" or a
list without a "line" element, is left unchanged by the membership
test. -/
def adjustIssue (off : ℚ) (j : Json) : Option Json :=
  match j with
  | .obj kvs =>
    match lookupKV kvs (strC "line") with
    | none => some (.obj kvs)
    | some (.num q) => some (.obj (updateKV kvs (strC "line") (.num (q + off))))
    | some (.jbool b) =>
      some (.obj (updateKV kvs (strC "line") (.num ((if b then 1 else 0) + off))))
    | some _ => none
  | .str s => if listContains s (strC "line") then none else some (.str s)
  | .arr es =>
    if es.any (fun e => match e with | .str s => s == strC "line" | _ => false) then none
    else some (.arr es)
  | _ => none

/-- The line adjustment applied to chunk `i`'s issue list. -/
def adjustChunkIssues (i : Nat) (r : AnalysisOut) : Option (List Json) :=
  match r.issues with
  | .arr l => mapMOpt (adjustIssue ((i : ℚ) * 800)) l
  | _ => none

/-- One combined metric field (lines 146-151):
`sum(m.get(key, 5) for m in all_metrics) / len(all_metrics) if all_metrics else 5`;
every chunk result carries a metrics entry, so `all_metrics` is the
whole result list. -/
def combinedMetricField (results : List AnalysisOut) (key : List Char) : Option ℚ :=
  match mapMOpt (fun r => getMetricD r.metrics key) results with
  | some vs => some (if results.isEmpty then 5 else vs.sum / (results.length : ℚ))
  | none => none

/-- The multi-chunk branch of `analyze_code_with_chunking`
(lines 126-179): concatenate the line-adjusted issues, average the four
metric fields, append the best-practice issues, and format the summary. -/
def combineChunkResults (results : List AnalysisOut) (path : List Char) (nchunks : Nat) :
    Option AnalysisOut :=
  match mapMOpt (fun p => adjustChunkIssues p.1 p.2) (withIdxFrom 0 results),
        combinedMetricField results (strC "complexity_score"),
        combinedMetricField results (strC "maintainability_score"),
        combinedMetricField results (strC "security_score"),
        combinedMetricField results (strC "performance_score") with
  | some adjusted, some c, some m, some s, some pf =>
    some { issues := .arr (adjusted.flatten ++ productionStandards)
           metrics := .obj [(strC "complexity_score", .num c),
                            (strC "maintainability_score", .num m),
                            (strC "security_score", .num s),
                            (strC "performance_score", .num pf)]
           filePath := path
           analysisType := strC "chunked_llm_analysis"
           summary := some (.str (strC "Analyzed " ++ natToChars nchunks ++
             strC " chunks, found " ++
             natToChars (adjusted.flatten ++ productionStandards).length ++
             strC " total issues")) }
  | _, _, _, _, _ => none

/-- `analyze_code_with_chunking` (src/tools.py 104-179) with the
per-chunk analysis `_analyze_single_chunk(chunk, ..., llm)` as an
oracle taking the chunk index and text (the index also determines the
" (chunk i+1)" path suffix the source appends). -/
def analyzeCodeWithChunking (analyze : Nat → List Char → AnalysisOut)
    (code path : List Char) : Option AnalysisOut :=
  let cs := chunk_code code 800 100
  if cs.length = 1 then some (analyze 0 (cs.headD []))
  else combineChunkResults ((withIdxFrom 0 cs).map (fun p => analyze p.1 p.2)) path cs.length

/-! ## `LLMProvider.invoke` (src/llm_provider.py 327-354) -/

/-- Python dict lookup among reply entries. -/
def lookupPy : List (List Char × PyVal) → List Char → Option PyVal
  | [], _ => none
  | (k, v) :: t, key => if k = key then some v else lookupPy t key

/-- A reply value from the underlying client: a string, a dict (with
its entries and its `str()` text), or any other object (with optional
`content` and `text` attributes and its `str()` text). -/
inductive BackendResp where
  | rstr (s : List Char)
  | rdict (entries : List (List Char × PyVal)) (repr : List Char)
  | robj (content text : Option PyVal) (repr : List Char)

/-- One invocation of the underlying client: it raises, or it returns a
reply value. -/
inductive BackendBehavior where
  | raises (msg : List Char)
  | returns (r : BackendResp)

/-- `LLMProvider.invoke` (src/llm_provider.py 327-354): any exception
from the client is caught and `None` is returned (lines 351-354);
otherwise the reply shape is reduced: a dict's `content` then `text`
entry then its `str()`; a plain string; an object's `content` then
`text` attribute then its `str()`. -/
def llmProviderInvoke (client : List Char → BackendBehavior) (prompt : List Char) :
    Option PyVal :=
  match client prompt with
  | .raises _ => none
  | .returns (.rstr s) => some (.vstr s)
  | .returns (.rdict es repr) =>
    match lookupPy es (strC "content") with
    | some v => some v
    | none =>
      match lookupPy es (strC "text") with
      | some v => some v
      | none => some (.vstr repr)
  | .returns (.robj c t repr) =>
    match c with
    | some v => some v
    | none =>
      match t with
      | some v => some v
      | none => some (.vstr repr)

/-- The reply-shape reduction exactly as the claim words it ("a dict's
content or text entry, an object's content or text attribute, a plain
string, or the reply's string coercion"), stated independently of the
source translation above for comparison. -/
def reduceReplySpec : BackendResp → PyVal
  | .rstr s => .vstr s
  | .rdict es repr =>
    match lookupPy es (strC "content") with
    | some v => v
    | none =>
      match lookupPy es (strC "text") with
      | some v => v
      | none => .vstr repr
  | .robj c t repr =>
    match c with
    | some v => v
    | none =>
      match t with
      | some v => v
      | none => .vstr repr

/-- Whether a reduced reply value is a Python string. -/
def isVstr : PyVal → Bool
  | .vstr _ => true
  | .vother _ => false

/-! ## Derived notions used in the claim statements -/

/-- The issue list of a result whose issues field is an array. -/
def issuesArr (j : Json) : List Json :=
  match j with | .arr l => l | _ => []

/-- The per-chunk results the reconciliation operates on: the oracle
applied to each chunk of `chunk_code(code, 800, 100)` with its index. -/
def chunkResults (analyze : Nat → List Char → AnalysisOut) (code : List Char) :
    List AnalysisOut :=
  (withIdxFrom 0 (chunk_code code 800 100)).map (fun p => analyze p.1 p.2)

/-- The claim's reconciled metric: the arithmetic mean over all chunks
of the field, a chunk missing the field contributing the default 5. -/
def specMeanMetric (results : List AnalysisOut) (key : List Char) : ℚ :=
  (results.map (fun r => (getMetricD r.metrics key).getD 5)).sum / (results.length : ℚ)

/-- The estimated token cost of a whole text, by the same per-line
estimate the chunker uses. -/
def estTokens (code : List Char) : Nat := sumTokens (splitOnNl code)

/-- The claim's shared-line relation between adjacent chunks: the
earlier chunk's last line, when its estimate fits the overlap budget,
appears among the later chunk's lines. -/
def sharesLastLine (ov : Nat) (a b : List Char) : Prop :=
  ∀ l, (splitOnNl a).getLast? = some l → tokens l ≤ ov → l ∈ splitOnNl b

/-- The shared-line relation at the level of the chunker's line lists. -/
def sharesLastLineL (ov : Nat) (a b : List (List Char)) : Prop :=
  ∀ l, a.getLast? = some l → tokens l ≤ ov → l ∈ b

/-- The sequence of first occurrences of the distinct lines of a line
sequence, in order of first appearance. -/
def firstOccs : List (List Char) → List (List Char)
  | [] => []
  | a :: l => a :: firstOccs (l.filter (· ≠ a))
termination_by l => l.length
decreasing_by
  simp only [List.length_cons]
  exact Nat.lt_succ_of_le (List.length_filter_le _ _)

/-! ## Concrete instances used by counterexamples and witnesses -/

/-- A probe whose every model variant raises a quota-classified error. -/
def demoQuotaProbe : List Char → ModelOutcome :=
  fun _ => .probeRaises (strC "429 rate limit")

/-- A reply whose JSON object carries only a partial metrics dict and
no summary. -/
def demoJsonText : List Char := strC "\x7b\x22metrics\x22: \x7b\x22complexity_score\x22: 3\x7d\x7d"

/-- The structured value `json.loads` produces for `demoJsonText`. -/
def demoParsedObj : Json := .obj [(strC "metrics", .obj [(strC "complexity_score", .num 3)])]

/-- A parse oracle agreeing with `json.loads` on `demoJsonText`. -/
def demoParse : List Char → Option Json :=
  fun s => if s = demoJsonText then some demoParsedObj else none

/-- A backend whose reply is a dict with a non-string content entry. -/
def demoNonStrClient : List Char → BackendBehavior :=
  fun _ => .returns (.rdict [(strC "content", .vother (strC "[1, 2]"))] (strC "dict repr"))

/-- A 1640-character line (410 estimated tokens). -/
def witLineA : List Char := List.replicate 1640 'a'

/-- A second 1640-character line. -/
def witLineB : List Char := List.replicate 1640 'b'

/-- A third 1640-character line. -/
def witLineC : List Char := List.replicate 1640 'c'

/-- A three-line text that `chunk_code(., 800, 100)` splits into three
single-line chunks. -/
def witCode4 : List Char := witLineA ++ ('\n' :: (witLineB ++ ('\n' :: witLineC)))

/-- A per-chunk analysis oracle reporting security scores 5, 6, 7 for
chunks 0, 1, 2 and leaving the other metric fields absent; each chunk
reports one issue at line 1. -/
def demoChunkAnalysis : Nat → List Char → AnalysisOut := fun i _ =>
  { issues := .arr [.obj [(strC "type", .str (strC "security")), (strC "line", .num 1)]]
    metrics := .obj [(strC "security_score", .num (if i = 0 then 5 else if i = 1 then 6 else 7))]
    filePath := []
    analysisType := strC "llm_analysis"
    summary := none }

/-- The result `demoChunkAnalysis` produces for a chunk with security
score `v`. -/
def demoRes (v : ℚ) : AnalysisOut :=
  { issues := .arr [.obj [(strC "type", .str (strC "security")), (strC "line", .num 1)]]
    metrics := .obj [(strC "security_score", .num v)]
    filePath := []
    analysisType := strC "llm_analysis"
    summary := none }

/-! ## Helper lemmas: splitting and joining on newlines -/

theorem splitOnNl_ne_nil (s : List Char) : splitOnNl s ≠ [] := by
  cases s with
  | nil => simp [splitOnNl]
  | cons c t =>
    unfold splitOnNl
    rcases splitOnNl t with _ | ⟨l, ls⟩
    · simp
    · dsimp only
      split <;> simp

theorem splitOnNl_no_nl (l : List Char) (h : '\n' ∉ l) : splitOnNl l = [l] := by
  induction l with
  | nil => rfl
  | cons c t ih =>
    have hc : c ≠ '\n' := fun hc => h (hc ▸ List.mem_cons_self _ _)
    have ht : '\n' ∉ t := fun hm => h (List.mem_cons_of_mem _ hm)
    simp [splitOnNl, ih ht, hc]

theorem splitOnNl_append_nl (l s : List Char) (h : '\n' ∉ l) :
    splitOnNl (l ++ '\n' :: s) = l :: splitOnNl s := by
  induction l with
  | nil =>
    simp only [List.nil_append, splitOnNl]
    rcases hs : splitOnNl s with _ | ⟨a, as⟩
    · exact absurd hs (splitOnNl_ne_nil s)
    · simp
  | cons c t ih =>
    have hc : c ≠ '\n' := fun hc => h (hc ▸ List.mem_cons_self _ _)
    have ht : '\n' ∉ t := fun hm => h (List.mem_cons_of_mem _ hm)
    simp only [List.cons_append, splitOnNl]
    simp only [List.append_eq]
    rw [ih ht]
    simp [hc]

theorem joinNl_splitOnNl (s : List Char) : joinNl (splitOnNl s) = s := by
  induction s with
  | nil => rfl
  | cons c t ih =>
    rcases h : splitOnNl t with _ | ⟨l, ls⟩
    · exact absurd h (splitOnNl_ne_nil t)
    · rw [h] at ih
      by_cases hc : c = '\n'
      · subst hc
        simp only [splitOnNl, h, if_pos rfl]
        cases ls with
        | nil => simpa [joinNl] using ih
        | cons b bs => simpa [joinNl] using ih
      · simp only [splitOnNl, h, if_neg hc]
        cases ls with
        | nil =>
          simp only [joinNl] at ih ⊢
          rw [ih]
        | cons b bs =>
          simp only [joinNl, List.cons_append] at ih ⊢
          rw [ih]

theorem splitOnNl_pieces (s : List Char) :
    ∀ p ∈ splitOnNl s, '\n' ∉ p := by
  induction s with
  | nil =>
    intro p hp
    simp [splitOnNl] at hp
    simp [hp]
  | cons c t ih =>
    intro p hp
    rcases h : splitOnNl t with _ | ⟨l, ls⟩
    · exact absurd h (splitOnNl_ne_nil t)
    · rw [h] at ih
      by_cases hc : c = '\n'
      · subst hc
        simp only [splitOnNl, h, if_pos rfl] at hp
        rcases List.mem_cons.mp hp with h1 | h2
        · simp [h1]
        · exact ih p h2
      · simp only [splitOnNl, h, if_neg hc] at hp
        rcases List.mem_cons.mp hp with h1 | h2
        · subst h1
          intro hmem
          rcases List.mem_cons.mp hmem with h3 | h4
          · exact hc h3.symm
          · exact ih l (List.mem_cons_self _ _) h4
        · exact ih p (List.mem_cons_of_mem _ h2)

theorem splitOnNl_joinNl (cs : List (List Char)) (hne : cs ≠ [])
    (h : ∀ c ∈ cs, '\n' ∉ c) : splitOnNl (joinNl cs) = cs := by
  induction cs with
  | nil => exact absurd rfl hne
  | cons c cs ih =>
    cases cs with
    | nil => simp [joinNl, splitOnNl_no_nl c (h c (by simp))]
    | cons b bs =>
      have hj : joinNl (c :: b :: bs) = c ++ '\n' :: joinNl (b :: bs) := rfl
      rw [hj, splitOnNl_append_nl _ _ (h c (by simp)),
        ih (by simp) (fun x hx => h x (by simp [hx]))]

/-! ## Helper lemmas: the overlap seed -/

theorem takeWhileBudget_subset (b : Nat) (l : List (List Char)) :
    ∀ (acc : Nat) (x : List Char), x ∈ takeWhileBudget b acc l → x ∈ l := by
  induction l with
  | nil => intro acc x hx; simp [takeWhileBudget] at hx
  | cons a t ih =>
    intro acc x hx
    simp only [takeWhileBudget] at hx
    split at hx
    · rcases List.mem_cons.mp hx with h | h
      · simp [h]
      · exact List.mem_cons_of_mem _ (ih _ x h)
    · simp at hx

theorem overlapLines_subset (cur : List (List Char)) (b : Nat) :
    ∀ x ∈ overlapLines cur b, x ∈ cur := by
  intro x hx
  have h1 : x ∈ takeWhileBudget b 0 cur.reverse := List.mem_reverse.mp hx
  exact List.mem_reverse.mp (takeWhileBudget_subset b cur.reverse 0 x h1)

theorem overlapLines_last_mem (cur : List (List Char)) (b : Nat) (l : List Char)
    (hl : cur.getLast? = some l) (ht : tokens l ≤ b) : l ∈ overlapLines cur b := by
  have h1 : cur.reverse.head? = some l := by rw [List.head?_reverse]; exact hl
  rcases hr : cur.reverse with _ | ⟨a, t⟩
  · rw [hr] at h1; simp at h1
  · rw [hr] at h1
    simp only [List.head?_cons, Option.some.injEq] at h1
    subst h1
    unfold overlapLines
    rw [hr]
    simp only [takeWhileBudget]
    rw [if_pos (by simpa using ht)]
    simp

/-! ## Helper lemmas: the chunking loop -/

theorem chunkAux_ne_nil (maxT ov : Nat) :
    ∀ (lines cur : List (List Char)) (curLen : Nat) (chunks : List (List (List Char))),
    (lines ≠ [] ∨ cur ≠ [] ∨ chunks ≠ []) →
    chunkAux maxT ov lines cur curLen chunks ≠ [] := by
  intro lines
  induction lines with
  | nil =>
    intro cur curLen chunks h heq
    simp only [chunkAux] at heq
    rcases List.append_eq_nil.mp heq with ⟨h1, h2⟩
    rcases h with h | h | h
    · exact h rfl
    · rw [if_neg (by simpa using h)] at h2
      exact absurd h2 (by simp)
    · exact h h1
  | cons a rest ih =>
    intro cur curLen chunks _
    simp only [chunkAux]
    split
    · exact ih _ _ _ (Or.inr (Or.inl (by simp)))
    · exact ih _ _ _ (Or.inr (Or.inl (by simp)))

theorem chunkAux_fits (maxT ov : Nat) :
    ∀ (lines cur : List (List Char)) (curLen : Nat) (chunks : List (List (List Char))),
    curLen + sumTokens lines ≤ maxT →
    chunkAux maxT ov lines cur curLen chunks =
      chunks ++ (if (cur ++ lines).isEmpty then [] else [cur ++ lines]) := by
  intro lines
  induction lines with
  | nil => intro cur curLen chunks _; simp [chunkAux]
  | cons l rest ih =>
    intro cur curLen chunks hle
    have h1 : sumTokens (l :: rest) = tokens l + sumTokens rest := by simp [sumTokens]
    rw [h1] at hle
    have h2 : ¬ (maxT < curLen + tokens l ∧ cur ≠ []) := by
      rintro ⟨hlt, -⟩
      omega
    simp only [chunkAux, if_neg h2]
    rw [ih (cur ++ [l]) (curLen + tokens l) chunks (by omega)]
    simp [List.append_assoc]

theorem chunkAux_mem_lines (maxT ov : Nat) :
    ∀ (lines cur : List (List Char)) (curLen : Nat) (chunks : List (List (List Char)))
      (c : List (List Char)) (l : List Char),
    c ∈ chunkAux maxT ov lines cur curLen chunks → l ∈ c →
    (∃ c' ∈ chunks, l ∈ c') ∨ l ∈ cur ∨ l ∈ lines := by
  intro lines
  induction lines with
  | nil =>
    intro cur curLen chunks c l hc hl
    simp only [chunkAux] at hc
    rcases List.mem_append.mp hc with h | h
    · exact Or.inl ⟨c, h, hl⟩
    · split at h
      · simp at h
      · simp only [List.mem_singleton] at h
        subst h
        exact Or.inr (Or.inl hl)
  | cons a rest ih =>
    intro cur curLen chunks c l hc hl
    simp only [chunkAux] at hc
    split at hc
    · rcases ih _ _ _ c l hc hl with ⟨c', hc', hl'⟩ | h | h
      · rcases List.mem_append.mp hc' with h1 | h1
        · exact Or.inl ⟨c', h1, hl'⟩
        · simp only [List.mem_singleton] at h1
          subst h1
          exact Or.inr (Or.inl hl')
      · rcases List.mem_append.mp h with h1 | h1
        · exact Or.inr (Or.inl (overlapLines_subset _ _ _ h1))
        · simp only [List.mem_singleton] at h1
          subst h1
          exact Or.inr (Or.inr (by simp))
      · exact Or.inr (Or.inr (List.mem_cons_of_mem _ h))
    · rcases ih _ _ _ c l hc hl with h | h | h
      · exact Or.inl h
      · rcases List.mem_append.mp h with h1 | h1
        · exact Or.inr (Or.inl h1)
        · simp only [List.mem_singleton] at h1
          subst h1
          exact Or.inr (Or.inr (by simp))
      · exact Or.inr (Or.inr (List.mem_cons_of_mem _ h))

theorem chunkAux_mem_ne_nil (maxT ov : Nat) :
    ∀ (lines cur : List (List Char)) (curLen : Nat) (chunks : List (List (List Char))),
    (∀ c ∈ chunks, c ≠ []) →
    ∀ c ∈ chunkAux maxT ov lines cur curLen chunks, c ≠ [] := by
  intro lines
  induction lines with
  | nil =>
    intro cur curLen chunks h c hc
    simp only [chunkAux] at hc
    rcases List.mem_append.mp hc with h1 | h1
    · exact h c h1
    · split at h1
      · simp at h1
      · simp only [List.mem_singleton] at h1
        subst h1
        rename_i hcur
        simpa using hcur
  | cons a rest ih =>
    intro cur curLen chunks h c hc
    simp only [chunkAux] at hc
    split at hc
    · rename_i hcond
      refine ih _ _ _ ?_ c hc
      intro c' hc'
      rcases List.mem_append.mp hc' with h1 | h1
      · exact h c' h1
      · simp only [List.mem_singleton] at h1
        subst h1
        exact hcond.2
    · exact ih _ _ _ h c hc

/-! ## Helper lemmas: first occurrences -/

theorem mem_firstOccs (x : List Char) : ∀ (s : List (List Char)), x ∈ firstOccs s ↔ x ∈ s
  | [] => by simp [firstOccs]
  | a :: l => by
    simp only [firstOccs]
    constructor
    · intro h
      rcases List.mem_cons.mp h with h | h
      · simp [h]
      · have := (mem_firstOccs x (l.filter (· ≠ a))).mp h
        exact List.mem_cons_of_mem _ (List.mem_of_mem_filter this)
    · intro h
      rcases List.mem_cons.mp h with h | h
      · simp [h]
      · by_cases hxa : x = a
        · simp [hxa]
        · refine List.mem_cons_of_mem _ ((mem_firstOccs x _).mpr ?_)
          exact List.mem_filter.mpr ⟨h, by simpa using hxa⟩
termination_by s => s.length
decreasing_by
  all_goals
    simp only [List.length_cons]
    exact Nat.lt_succ_of_le (List.length_filter_le _ _)

theorem firstOccs_absorb : ∀ (s t u : List (List Char)),
    (∀ x ∈ t, x ∈ s) → firstOccs (s ++ t ++ u) = firstOccs (s ++ u)
  | [], t, u, h => by
    have ht : t = [] := List.eq_nil_iff_forall_not_mem.mpr (fun x hx => by simpa using h x hx)
    simp [ht]
  | a :: s, t, u, h => by
    simp only [List.cons_append, firstOccs]
    congr 1
    rw [List.filter_append, List.filter_append, List.filter_append]
    refine firstOccs_absorb (s.filter (· ≠ a)) (t.filter (· ≠ a)) (u.filter (· ≠ a)) ?_
    intro x hx
    rcases List.mem_filter.mp hx with ⟨hxt, hxa⟩
    have hxs : x ∈ a :: s := h x hxt
    rcases List.mem_cons.mp hxs with h1 | h1
    · exact absurd h1 (by simpa using hxa)
    · exact List.mem_filter.mpr ⟨h1, hxa⟩
termination_by s _ _ _ => s.length
decreasing_by
  all_goals
    simp only [List.length_cons]
    exact Nat.lt_succ_of_le (List.length_filter_le _ _)

theorem chunkAux_firstOccs (maxT ov : Nat) :
    ∀ (lines cur : List (List Char)) (curLen : Nat) (chunks : List (List (List Char))),
    firstOccs (chunkAux maxT ov lines cur curLen chunks).flatten =
      firstOccs (chunks.flatten ++ cur ++ lines) := by
  intro lines
  induction lines with
  | nil =>
    intro cur curLen chunks
    simp only [chunkAux]
    by_cases h : cur.isEmpty
    · have hc : cur = [] := by simpa using h
      subst hc
      simp
    · rw [if_neg h]
      simp [List.flatten_append]
  | cons a rest ih =>
    intro cur curLen chunks
    simp only [chunkAux]
    split
    · rw [ih]
      have hsub : ∀ x ∈ overlapLines cur ov, x ∈ chunks.flatten ++ cur :=
        fun x hx => List.mem_append_right _ (overlapLines_subset cur ov x hx)
      calc firstOccs ((chunks ++ [cur]).flatten ++ (overlapLines cur ov ++ [a]) ++ rest)
          = firstOccs ((chunks.flatten ++ cur) ++ overlapLines cur ov ++ (a :: rest)) := by
            apply congrArg
            simp [List.flatten_append, List.append_assoc]
        _ = firstOccs ((chunks.flatten ++ cur) ++ (a :: rest)) :=
            firstOccs_absorb _ _ _ hsub
        _ = firstOccs (chunks.flatten ++ cur ++ (a :: rest)) := rfl
    · rw [ih]
      apply congrArg
      simp [List.append_assoc]

/-! ## Helper lemmas: adjacent-chunk overlap -/

theorem chunkAux_chain (maxT ov : Nat) :
    ∀ (lines cur : List (List Char)) (curLen : Nat) (chunks : List (List (List Char))),
    List.Chain' (sharesLastLineL ov) chunks →
    (chunks = [] ∨ (cur ≠ [] ∧ ∀ lastc ∈ chunks.getLast?, sharesLastLineL ov lastc cur)) →
    List.Chain' (sharesLastLineL ov) (chunkAux maxT ov lines cur curLen chunks) := by
  intro lines
  induction lines with
  | nil =>
    intro cur curLen chunks hch hinv
    simp only [chunkAux]
    by_cases hc : cur.isEmpty
    · rw [if_pos hc]
      simpa using hch
    · rw [if_neg hc]
      rw [List.chain'_append]
      refine ⟨hch, by simp, ?_⟩
      intro x hx y hy
      simp only [List.head?_cons, Option.mem_def, Option.some.injEq] at hy
      subst hy
      rcases hinv with h | ⟨-, h⟩
      · subst h; simp at hx
      · exact h x hx
  | cons a rest ih =>
    intro cur curLen chunks hch hinv
    simp only [chunkAux]
    split
    · rename_i hcond
      apply ih
      · rw [List.chain'_append]
        refine ⟨hch, by simp, ?_⟩
        intro x hx y hy
        simp only [List.head?_cons, Option.mem_def, Option.some.injEq] at hy
        subst hy
        rcases hinv with h | ⟨-, h⟩
        · subst h; simp at hx
        · exact h x hx
      · right
        refine ⟨by simp, ?_⟩
        intro lastc hl
        rw [List.getLast?_concat] at hl
        simp only [Option.mem_def, Option.some.injEq] at hl
        subst hl
        intro l hlast htok
        exact List.mem_append_left _ (overlapLines_last_mem cur ov l hlast htok)
    · apply ih
      · exact hch
      · rcases hinv with h | ⟨hne, h⟩
        · exact Or.inl h
        · right
          refine ⟨by simp, ?_⟩
          intro lastc hl l hlast htok
          exact List.mem_append_left _ (h lastc hl l hlast htok)

/-! ## Helper lemmas: `mapMOpt` and enumeration -/

theorem mapMOpt_eq_map {α β : Type} (f : α → Option β) (d : β) :
    ∀ (l : List α) (l' : List β), mapMOpt f l = some l' →
      l' = l.map (fun a => (f a).getD d) := by
  intro l
  induction l with
  | nil => intro l' h; simp [mapMOpt] at h; simp [← h]
  | cons a t ih =>
    intro l' h
    simp only [mapMOpt] at h
    rcases hfa : f a with _ | b <;> rw [hfa] at h
    · simp at h
    · rcases hmt : mapMOpt f t with _ | bt <;> rw [hmt] at h
      · simp at h
      · simp only [Option.some.injEq] at h
        subst h
        simp [hfa, ih bt hmt]

theorem mapMOpt_mem {α β : Type} (f : α → Option β) :
    ∀ (l : List α) (l' : List β), mapMOpt f l = some l' →
      ∀ a ∈ l, ∃ b, f a = some b ∧ b ∈ l' := by
  intro l
  induction l with
  | nil => intro l' _ a ha; simp at ha
  | cons x t ih =>
    intro l' h a ha
    simp only [mapMOpt] at h
    rcases hfa : f x with _ | b <;> rw [hfa] at h
    · simp at h
    · rcases hmt : mapMOpt f t with _ | bt <;> rw [hmt] at h
      · simp at h
      · simp only [Option.some.injEq] at h
        subst h
        rcases List.mem_cons.mp ha with h1 | h1
        · subst h1; exact ⟨b, hfa, by simp⟩
        · rcases ih bt hmt a h1 with ⟨b', hb', hmem⟩
          exact ⟨b', hb', List.mem_cons_of_mem _ hmem⟩

theorem withIdxFrom_mem {α : Type} :
    ∀ (l : List α) (n : Nat) (a : α), a ∈ l → ∃ k, (k, a) ∈ withIdxFrom n l := by
  intro l
  induction l with
  | nil => intro n a ha; simp at ha
  | cons x t ih =>
    intro n a ha
    rcases List.mem_cons.mp ha with h | h
    · subst h; exact ⟨n, by simp [withIdxFrom]⟩
    · rcases ih (n + 1) a h with ⟨k, hk⟩
      exact ⟨k, by simp [withIdxFrom, hk]⟩

/-! ## Helper lemmas: the chunk list as line lists -/

theorem chunkLines_ne_nil (code : List Char) (maxT ov : Nat) :
    chunkLines code maxT ov ≠ [] :=
  chunkAux_ne_nil maxT ov _ [] 0 [] (Or.inl (splitOnNl_ne_nil code))

theorem chunk_code_eq_map (code : List Char) (maxT ov : Nat) :
    chunk_code code maxT ov = (chunkLines code maxT ov).map joinNl := by
  unfold chunk_code
  rw [if_neg (by simpa using chunkLines_ne_nil code maxT ov)]

theorem chunkLines_mem_ne_nil (code : List Char) (maxT ov : Nat) :
    ∀ c ∈ chunkLines code maxT ov, c ≠ [] :=
  chunkAux_mem_ne_nil maxT ov _ [] 0 [] (by simp)

theorem chunkLines_splitJoin (code : List Char) (maxT ov : Nat) :
    ∀ c ∈ chunkLines code maxT ov, splitOnNl (joinNl c) = c := by
  intro c hc
  refine splitOnNl_joinNl c (chunkLines_mem_ne_nil code maxT ov c hc) ?_
  intro l hl
  rcases chunkAux_mem_lines maxT ov _ [] 0 [] c l hc hl with ⟨c', hc', _⟩ | h | h
  · simp at hc'
  · simp at h
  · exact splitOnNl_pieces code l h

/-- Claim C5 (amended): for every text, max_tokens and overlap_tokens > 0,
every pair of adjacent chunks whose earlier chunk's final line has
estimated token cost at most overlap_tokens shares that final line: it
appears among the later chunk's lines.  (As originally stated — every
adjacent pair shares a line unconditionally — the claim is refuted by
`C5_counterexample`: when the earlier chunk's trailing line exceeds the
overlap budget the seed loop takes no lines at all.) -/
theorem C5_overlap_chain (code : List Char) (maxT ov : Nat) (_hov : 0 < ov) :
    List.Chain' (sharesLastLine ov) (chunk_code code maxT ov) := by
  have hchain : List.Chain' (sharesLastLineL ov) (chunkLines code maxT ov) :=
    chunkAux_chain maxT ov _ [] 0 [] (by simp) (Or.inl rfl)
  rw [chunk_code_eq_map, List.chain'_map]
  rw [List.chain'_iff_get] at hchain ⊢
  intro i hi
  intro l hlast htok
  rw [chunkLines_splitJoin code maxT ov _ (List.get_mem _ _ _)] at hlast
  rw [chunkLines_splitJoin code maxT ov _ (List.get_mem _ _ _)]
  exact hchain i hi l hlast htok

/-- Claim C5, witness: on a three-line text split at max_tokens 2 with
overlap 1, the amended overlap property holds for the produced chunks. -/
theorem C5_witness :
    List.Chain' (sharesLastLine 1) (chunk_code (strC "aaaa\nbbbb\ncccc") 2 1) :=
  C5_overlap_chain (strC "aaaa\nbbbb\ncccc") 2 1 (by decide)

/-- Claim C5, counterexample to the original statement: with
overlap_tokens = 2 > 0 this text produces two adjacent chunks sharing
no line at all, because the earlier chunk's only line costs 3 estimated
tokens, exceeding the overlap budget. -/
theorem C5_counterexample :
    chunk_code (strC "aaaaaaaaaaaa\nbbbbbbbbbbbb") 4 2 =
      [strC "aaaaaaaaaaaa", strC "bbbbbbbbbbbb"] ∧
    (splitOnNl (strC "aaaaaaaaaaaa")).inter (splitOnNl (strC "bbbbbbbbbbbb")) = [] := by
  exact ⟨by decide, by decide⟩

/-- Claim C8: `chunk_code` is deterministic in its arguments, always
returns at least one chunk (also on empty input), and returns exactly
`[text]` whenever the whole text's estimated token cost fits within
max_tokens. -/
theorem C8_chunk_basic (t t' : List Char) (m m' o o' : Nat) :
    (t = t' → m = m' → o = o' → chunk_code t m o = chunk_code t' m' o') ∧
    1 ≤ (chunk_code t m o).length ∧
    (estTokens t ≤ m → chunk_code t m o = [t]) := by
  refine ⟨fun h1 h2 h3 => by rw [h1, h2, h3], ?_, ?_⟩
  · rw [chunk_code_eq_map]
    rw [List.length_map]
    exact List.length_pos.mpr (chunkLines_ne_nil t m o)
  · intro hfit
    have hfits := chunkAux_fits m o (splitOnNl t) [] 0 [] (by simpa [estTokens] using hfit)
    rw [chunk_code_eq_map]
    unfold chunkLines
    rw [hfits]
    rw [if_neg (by simpa using splitOnNl_ne_nil t)]
    simp [joinNl_splitOnNl]

/-- Claim C8, witness: a two-character text fits in one chunk at
max_tokens 10 and is returned verbatim as the single chunk. -/
theorem C8_witness :
    chunk_code (strC "ab") 10 2 = chunk_code (strC "ab") 10 2 ∧
    chunk_code (strC "ab") 10 2 = [strC "ab"] ∧
    1 ≤ (chunk_code (strC "ab") 10 2).length :=
  ⟨(C8_chunk_basic (strC "ab") (strC "ab") 10 10 2 2).1 rfl rfl rfl,
   (C8_chunk_basic (strC "ab") (strC "ab") 10 10 2 2).2.2 (by decide),
   (C8_chunk_basic (strC "ab") (strC "ab") 10 10 2 2).2.1⟩

/-- Claim C9: chunking drops no content: the sequence of first
occurrences of lines across the flattened chunk sequence equals the
sequence of first occurrences of the input's lines (so every input line
appears as a line of some chunk, and first occurrences keep the input
order), and every input line is a line of at least one returned chunk. -/
theorem C9_no_loss (code : List Char) (maxT ov : Nat) :
    firstOccs ((chunk_code code maxT ov).map splitOnNl).flatten =
      firstOccs (splitOnNl code) ∧
    ∀ l ∈ splitOnNl code, ∃ c ∈ chunk_code code maxT ov, l ∈ splitOnNl c := by
  have hmap : (chunk_code code maxT ov).map splitOnNl = chunkLines code maxT ov := by
    rw [chunk_code_eq_map, List.map_map]
    calc (chunkLines code maxT ov).map (splitOnNl ∘ joinNl)
        = (chunkLines code maxT ov).map id :=
          List.map_congr_left (fun c hc => chunkLines_splitJoin code maxT ov c hc)
      _ = chunkLines code maxT ov := List.map_id _
  have hfo : firstOccs (chunkLines code maxT ov).flatten = firstOccs (splitOnNl code) := by
    have h := chunkAux_firstOccs maxT ov (splitOnNl code) [] 0 []
    simpa [chunkLines] using h
  refine ⟨by rw [hmap, hfo], ?_⟩
  intro l hl
  have h1 : l ∈ firstOccs (splitOnNl code) := (mem_firstOccs l _).mpr hl
  rw [← hfo] at h1
  rcases List.mem_flatten.mp ((mem_firstOccs l _).mp h1) with ⟨c, hc, hlc⟩
  refine ⟨joinNl c, ?_, ?_⟩
  · rw [chunk_code_eq_map]
    exact List.mem_map_of_mem _ hc
  · rw [chunkLines_splitJoin code maxT ov c hc]
    exact hlc

/-- Claim C9, witness: the middle line of a three-line text appears as
a line of one of the produced chunks. -/
theorem C9_witness :
    ∃ c ∈ chunk_code (strC "aaaa\nbbbb\ncccc") 2 1, strC "bbbb" ∈ splitOnNl c :=
  (C9_no_loss (strC "aaaa\nbbbb\ncccc") 2 1).2 (strC "bbbb") (by decide)

/-! ## Claims about the Provider Resolver -/

theorem tryModelsGroq_attempted_ne_nil (probe : List Char → ModelOutcome) :
    ∀ (models : List (List Char)), models ≠ [] →
      (tryModelsGroq probe models).attempted ≠ [] := by
  intro models hm
  cases models with
  | nil => exact absurd rfl hm
  | cons m rest =>
    simp only [tryModelsGroq]
    cases probe m <;> simp_all [tryModelsGroq]

theorem tryModelsOpenai_attempted_ne_nil (probe : List Char → ModelOutcome) :
    ∀ (models : List (List Char)), models ≠ [] →
      (tryModelsOpenai probe models).attempted ≠ [] := by
  intro models hm
  cases models with
  | nil => exact absurd rfl hm
  | cons m rest =>
    simp only [tryModelsOpenai]
    cases probe m <;> simp_all [tryModelsOpenai]

theorem quotaClassified_google (msg : List Char) (h : quotaClassified msg = true) :
    googleQuotaClassified msg = true := by
  unfold quotaClassified at h
  unfold googleQuotaClassified
  rcases Bool.or_eq_true_iff.mp h with h1 | h1
  · rcases Bool.or_eq_true_iff.mp h1 with h2 | h2 <;> simp [h2]
  · simp [h1]

/-- Claim C1 (amended): only the Google Gemini provider abandons its
remaining model variants when a probe raises a quota-classified error
(it then raises, so the resolver chain advances to the next provider);
the Groq and OpenAI providers move on to their next model variant after
any probe error, quota-classified or not, and leave a provider only
after exhausting all its variants.  The chain advance on a provider
error is the last conjunct. -/
theorem C1_quota_scope :
    (∀ (probe : List Char → ModelOutcome) (msg : List Char),
      quotaClassified msg = true →
      probe (strC "gemini-2.5-flash-preview-05-20") = .probeRaises msg →
      (tryModelsGoogle probe googleModels).attempted =
        [strC "gemini-2.5-flash-preview-05-20"] ∧
      (tryModelsGoogle probe googleModels).result =
        .error (strC "Google Gemini quota exceeded: " ++
          (strC "Google Gemini quota exceeded: " ++ msg))) ∧
    (∀ (probe : List Char → ModelOutcome) (msg : List Char),
      probe (strC "llama-3.1-8b-instant") = .probeRaises msg →
      2 ≤ (tryModelsGroq probe groqModels).attempted.length) ∧
    (∀ (probe : List Char → ModelOutcome) (msg : List Char),
      probe (strC "gpt-4o-mini") = .probeRaises msg →
      2 ≤ (tryModelsOpenai probe openaiModels).attempted.length) ∧
    (∀ (r : TryRun) (rest : List TryRun) (e : List Char), r.result = .error e →
      runChain (r :: rest) = ((runChain rest).1, r.calls + (runChain rest).2)) := by
  refine ⟨?_, ?_, ?_, ?_⟩
  · intro probe msg hq hp
    have hg := quotaClassified_google msg hq
    constructor <;> simp [googleModels, tryModelsGoogle, hp, hg]
  · intro probe msg hp
    simp only [groqModels, tryModelsGroq, hp]
    simp only [List.length_cons, Nat.succ_le_succ_iff]
    have := tryModelsGroq_attempted_ne_nil probe
      [strC "llama3-70b-8192", strC "llama3-8b-8192", strC "mixtral-8x7b-32768"] (by simp)
    exact Nat.one_le_iff_ne_zero.mpr (by simpa [List.length_eq_zero] using this)
  · intro probe msg hp
    simp only [openaiModels, tryModelsOpenai, hp]
    simp only [List.length_cons, Nat.succ_le_succ_iff]
    have := tryModelsOpenai_attempted_ne_nil probe
      [strC "gpt-4-turbo", strC "gpt-3.5-turbo"] (by simp)
    exact Nat.one_le_iff_ne_zero.mpr (by simpa [List.length_eq_zero] using this)
  · intro r rest e he
    simp only [runChain, he]

/-- Claim C1, counterexample to the original statement: a probe that
raises a quota-classified "429 rate limit" error on every Groq model
variant does not stop Groq's model loop — all four variants are
attempted before the provider raises and the chain advances. -/
theorem C1_counterexample :
    (tryModelsGroq demoQuotaProbe groqModels).attempted = groqModels ∧
    quotaClassified (strC "429 rate limit") = true ∧
    groqModels.length = 4 ∧
    (tryModelsGroq demoQuotaProbe groqModels).result =
      .error (strC "All Groq models failed") :=
  ⟨by decide, by decide, by decide, rfl⟩

/-- Claim C1, witness: with the quota-raising probe, Google abandons
after its first model variant while Groq still attempts at least two. -/
theorem C1_witness :
    (tryModelsGoogle demoQuotaProbe googleModels).attempted =
      [strC "gemini-2.5-flash-preview-05-20"] ∧
    2 ≤ (tryModelsGroq demoQuotaProbe groqModels).attempted.length :=
  ⟨(C1_quota_scope.1 demoQuotaProbe (strC "429 rate limit") (by decide) rfl).1,
   C1_quota_scope.2.1 demoQuotaProbe (strC "429 rate limit") rfl⟩

/-- Claim C2: with no provider credential environment variable set,
`_setup_llm` commits to the fallback provider with zero network probe
calls, for every library-availability configuration and every oracle
behaviour (in particular it never raises: the setup loop absorbs every
provider error), and `get_provider_info()` then reports
`fallback_mode == True`. -/
theorem C2_no_credentials (flags : Flags) (cfgModel : List Char) (listModelsOk : Bool)
    (hfProbe : ModelOutcome) (gProbe qProbe oProbe : List Char → ModelOutcome) :
    setupLLM flags noCredEnv cfgModel listModelsOk hfProbe gProbe qProbe oProbe =
      (strC "fallback", 0) ∧
    (getProviderInfo (setupLLM flags noCredEnv cfgModel listModelsOk hfProbe gProbe
      qProbe oProbe).1).fallbackMode = true := by
  have h1 : tryHuggingface flags noCredEnv cfgModel listModelsOk hfProbe =
      ⟨[], 0, .error (if !flags.huggingfaceAvailable then
        strC "langchain_huggingface not available"
        else strC "HUGGINGFACEHUB_API_TOKEN not set")⟩ := by
    unfold tryHuggingface
    cases flags.huggingfaceAvailable <;> simp [noCredEnv]
  have h2 : tryGoogleProvider flags noCredEnv gProbe =
      ⟨[], 0, .error (if !flags.googleAvailable then
        strC "langchain_google_genai not available" else strC "GOOGLE_API_KEY not set")⟩ := by
    unfold tryGoogleProvider
    cases flags.googleAvailable <;> simp [noCredEnv]
  have h3 : tryGroqProvider flags noCredEnv qProbe =
      ⟨[], 0, .error (if !flags.groqAvailable then
        strC "langchain_groq not available" else strC "GROQ_API_KEY not set")⟩ := by
    unfold tryGroqProvider
    cases flags.groqAvailable <;> simp [noCredEnv]
  have h4 : tryOpenaiProvider flags noCredEnv oProbe =
      ⟨[], 0, .error (if !flags.openaiAvailable then
        strC "langchain_openai not available" else strC "OPENAI_API_KEY not set")⟩ := by
    unfold tryOpenaiProvider
    cases flags.openaiAvailable <;> simp [noCredEnv]
  have hmain : setupLLM flags noCredEnv cfgModel listModelsOk hfProbe gProbe qProbe oProbe =
      (strC "fallback", 0) := by
    unfold setupLLM
    rw [h1, h2, h3, h4]
    simp [runChain, fallbackRun]
  refine ⟨hmain, ?_⟩
  rw [hmain]
  decide

/-! ## Claims about the Response Normalizer and fallback analyzers -/

/-- Claim C3 (amended): normalizing a raw reply of None returns the
Static Fallback Analyzer's result — analysis_type "fallback_analysis",
the static_fallback provenance — for the code-analysis task, for every
source text, file path, and oracle behaviour; the security task's
normalizer never checks for None: it coerces the reply to the text
"None" and returns a plain-text-parse result with analysis_type
"llm_security_plain_text" instead. -/
theorem C3_none_reply :
    (∀ (pyCompile : List Char → CompileOutcome) (parse : List Char → Option Json)
        (code path : List Char),
      analyzeSingleChunk pyCompile parse none code path =
        fallbackAnalysis pyCompile code path) ∧
    (∀ (pyCompile : List Char → CompileOutcome) (code path : List Char),
      (fallbackAnalysis pyCompile code path).analysisType = strC "fallback_analysis") ∧
    (∀ (parse : List Char → Option Json) (code path : List Char),
      (analyzeSecurityNormalize parse none code path).analysisType =
        strC "llm_security_plain_text") :=
  ⟨fun _ _ _ _ => rfl, fun _ _ _ => rfl, fun _ _ _ => rfl⟩

/-- Claim C3, counterexample to the original statement: for the
security task kind, a None reply does not produce the Static Fallback
Analyzer's result — the provenance is llm_security_plain_text, not the
static fallback_security. -/
theorem C3_counterexample :
    (analyzeSecurityNormalize (fun _ => none) none (strC "") (strC "")).analysisType =
      strC "llm_security_plain_text" ∧
    strC "llm_security_plain_text" ≠ strC "fallback_security" ∧
    (fallbackSecurityAnalysis (strC "") (strC "")).analysisType = strC "fallback_security" :=
  ⟨by decide, by decide, rfl⟩

/-- Claim C6 (amended): when the response text has a first brace and a
later closing brace and the enclosed slice parses as a JSON object, the
normalizer returns that object's fields with these defaults: issues
defaults to the empty list; the metrics object defaults as a whole to
the all-5 dict only when the metrics key is entirely absent (a present
but partial metrics dict is returned unchanged, with no per-field
default); and summary defaults to the fixed string "Analysis completed"
(not to the raw response text); the analysis_type is "llm_analysis",
the remote provenance. -/
theorem C6_json_defaults (pyCompile : List Char → CompileOutcome)
    (parse : List Char → Option Json) (r : RawReply) (t js code path : List Char)
    (kvs : List (List Char × Json))
    (ht : respTextOf r = some t)
    (hjs : extractJsonSlice t = some js)
    (hp : parse js = some (Json.obj kvs)) :
    analyzeSingleChunk pyCompile parse (some r) code path =
      { issues := (lookupKV kvs (strC "issues")).getD (.arr [])
        metrics := (lookupKV kvs (strC "metrics")).getD defaultMetricsJson
        filePath := path
        analysisType := strC "llm_analysis"
        summary := some ((lookupKV kvs (strC "summary")).getD
          (.str (strC "Analysis completed"))) } := by
  simp only [analyzeSingleChunk, ht, hjs, hp]

/-- Claim C6, witness: a reply whose JSON object has only a partial
metrics dict is normalized to remote provenance with empty issues, the
partial metrics returned unchanged, and the fixed default summary. -/
theorem C6_witness :
    analyzeSingleChunk (fun _ => CompileOutcome.ok) demoParse
      (some (.strReply demoJsonText)) (strC "") (strC "") =
      { issues := Json.arr []
        metrics := Json.obj [(strC "complexity_score", Json.num 3)]
        filePath := strC ""
        analysisType := strC "llm_analysis"
        summary := some (Json.str (strC "Analysis completed")) } := by
  have h := C6_json_defaults (fun _ => CompileOutcome.ok) demoParse (.strReply demoJsonText)
    demoJsonText demoJsonText (strC "") (strC "")
    [(strC "metrics", Json.obj [(strC "complexity_score", Json.num 3)])]
    rfl (by decide) rfl
  rw [h]
  rfl

/-- Claim C6, counterexample to the original statement: with a parsed
object lacking a summary key, the returned summary is the fixed string
"Analysis completed", not the raw response text; and a present but
partial metrics dict keeps its missing fields missing instead of
defaulting each to 5. -/
theorem C6_counterexample :
    (analyzeSingleChunk (fun _ => CompileOutcome.ok) demoParse
        (some (.strReply demoJsonText)) (strC "") (strC "")).summary =
      some (Json.str (strC "Analysis completed")) ∧
    strC "Analysis completed" ≠ demoJsonText ∧
    (analyzeSingleChunk (fun _ => CompileOutcome.ok) demoParse
        (some (.strReply demoJsonText)) (strC "") (strC "")).metrics =
      Json.obj [(strC "complexity_score", Json.num 3)] ∧
    lookupKV [(strC "complexity_score", Json.num 3)] (strC "security_score") = none :=
  ⟨rfl, by decide, rfl, rfl⟩

/-- Claim C7 (amended): it is the agents-level fallback review
`_run_fallback_review` that flags long lines: for every input text, a
line longer than 120 characters (in particular a 130-character line)
yields at least one issue with type maintainability and severity low.
The tools-level Static Fallback Analyzer `_fallback_analysis` has no
line-length pattern, so a bare 130-character line yields no
maintainability issue there (`C7_counterexample`). -/
theorem C7_long_line (code path l : List Char)
    (hl : l ∈ splitOnNl code) (hlen : 120 < l.length) :
    ∃ j ∈ (runFallbackReview code path).issues,
      issueTypeIs j (strC "maintainability") = true ∧
      issueSeverityIs j (strC "low") = true := by
  have hcode : code.isEmpty = false := by
    cases code with
    | nil =>
      simp [splitOnNl] at hl
      subst hl
      simp at hlen
    | cons c t => rfl
  rcases withIdxFrom_mem (splitOnNl code) 1 l hl with ⟨k, hk⟩
  refine ⟨mkAgentIssue (strC "maintainability") (strC "low")
    (strC "Line too long - affects readability") k
    (strC "Break long lines for better readability") (stripWS l), ?_, rfl, rfl⟩
  unfold runFallbackReview
  simp only [hcode, Bool.false_eq_true, if_false]
  apply List.mem_append_left
  apply List.mem_flatten.mpr
  refine ⟨agentLineIssues k l, List.mem_map_of_mem _ hk, ?_⟩
  unfold agentLineIssues
  simp only [List.mem_append]
  exact Or.inr (by rw [if_pos hlen]; simp)

/-- Claim C7, witness: a text consisting of one 130-character line gets
a maintainability/low issue from the agents-level fallback review. -/
theorem C7_witness :
    ∃ j ∈ (runFallbackReview (List.replicate 130 'a') []).issues,
      issueTypeIs j (strC "maintainability") = true ∧
      issueSeverityIs j (strC "low") = true :=
  C7_long_line (List.replicate 130 'a') [] (List.replicate 130 'a') (by decide) (by decide)

/-- Claim C7, counterexample to the original statement: the tools-level
Static Fallback Analyzer `_fallback_analysis`, run on a text that is a
single 130-character line, reports no issue that is both maintainability
and severity low — its pattern tables have no line-length rule. -/
theorem C7_counterexample :
    splitOnNl (List.replicate 130 'a') = [List.replicate 130 'a'] ∧
    (List.replicate 130 'a').length = 130 ∧
    ((issuesArr (fallbackAnalysis (fun _ => CompileOutcome.ok)
        (List.replicate 130 'a') []).issues).all
      (fun j => !(issueTypeIs j (strC "maintainability") &&
        issueSeverityIs j (strC "low")))) = true :=
  ⟨by decide, by decide, by decide⟩

/-! ## Claim about `LLMProvider.invoke` -/

/-- Claim C10 (amended): `LLMProvider.invoke` never raises: for every
prompt and every client behaviour it returns None exactly when the
client's invoke raises, and otherwise returns the value selected by the
reply-shape reduction (a dict's content or text entry, an object's
content or text attribute, the plain string itself, or the reply's
string coercion).  The selected content/text entry is returned
unchanged, so the result is a string except when that entry holds a
non-string value (`C10_counterexample`). -/
theorem C10_invoke_total (client : List Char → BackendBehavior) (prompt : List Char) :
    llmProviderInvoke client prompt =
      (match client prompt with
       | .raises _ => none
       | .returns r => some (reduceReplySpec r)) := by
  rcases hb : client prompt with msg | r
  · simp [llmProviderInvoke, hb]
  · rcases r with s | ⟨es, rp⟩ | ⟨c, tx, rp⟩
    · simp [llmProviderInvoke, reduceReplySpec, hb]
    · cases h1 : lookupPy es (strC "content") with
      | none => cases h2 : lookupPy es (strC "text") <;>
          simp [llmProviderInvoke, reduceReplySpec, hb, h1, h2]
      | some v => simp [llmProviderInvoke, reduceReplySpec, hb, h1]
    · cases c with
      | none => cases tx <;> simp [llmProviderInvoke, reduceReplySpec, hb]
      | some v => simp [llmProviderInvoke, reduceReplySpec, hb]

/-- Claim C10, counterexample to "returns a string": a dict reply whose
content entry is a non-string value is returned unchanged, so the
result is not a string. -/
theorem C10_counterexample :
    llmProviderInvoke demoNonStrClient [] = some (.vother (strC "[1, 2]")) ∧
    (llmProviderInvoke demoNonStrClient []).map isVstr = some false :=
  ⟨by decide, by decide⟩

/-! ## Claim about chunk-result reconciliation -/

theorem withIdxFrom_length {α : Type} : ∀ (l : List α) (n : Nat),
    (withIdxFrom n l).length = l.length := by
  intro l
  induction l with
  | nil => intro n; rfl
  | cons a t ih => intro n; simp [withIdxFrom, ih]

theorem combinedMetricField_spec (results : List AnalysisOut) (key : List Char) (v : ℚ)
    (h : combinedMetricField results key = some v) (hne : results ≠ []) :
    v = specMeanMetric results key := by
  unfold combinedMetricField at h
  split at h
  · rename_i vs hvs
    simp only [Option.some.injEq] at h
    rw [if_neg (by simpa using hne)] at h
    subst h
    rw [mapMOpt_eq_map _ 5 _ _ hvs]
    rfl
  · simp at h

/-- Claim C4: when chunking produces more than one chunk (the analyzer
fixes max_tokens = 800 and overlap 100) and the reconciliation succeeds
on the per-chunk results, then (1) each combined metric field equals the
arithmetic mean over all chunks of that field, a chunk missing the field
contributing the default value 5, and (2) every issue reported by chunk
number i (0-based) carrying a numeric line q reappears among the
combined issues with its line increased by exactly i * 800, 800 being
the max_tokens of the chunking. -/
theorem C4_reconciliation (analyze : Nat → List Char → AnalysisOut)
    (code path : List Char) (out : AnalysisOut)
    (hmulti : 1 < (chunk_code code 800 100).length)
    (hok : analyzeCodeWithChunking analyze code path = some out) :
    out.metrics = Json.obj
      [(strC "complexity_score",
        .num (specMeanMetric (chunkResults analyze code) (strC "complexity_score"))),
       (strC "maintainability_score",
        .num (specMeanMetric (chunkResults analyze code) (strC "maintainability_score"))),
       (strC "security_score",
        .num (specMeanMetric (chunkResults analyze code) (strC "security_score"))),
       (strC "performance_score",
        .num (specMeanMetric (chunkResults analyze code) (strC "performance_score")))] ∧
    ∀ i r, (i, r) ∈ withIdxFrom 0 (chunkResults analyze code) →
      ∀ kvs q, Json.obj kvs ∈ issuesArr r.issues →
        lookupKV kvs (strC "line") = some (Json.num q) →
        Json.obj (updateKV kvs (strC "line") (Json.num (q + (i : ℚ) * 800))) ∈
          issuesArr out.issues := by
  have hRne : chunkResults analyze code ≠ [] := by
    intro h
    have := congrArg List.length h
    simp only [chunkResults, List.length_map, withIdxFrom_length, List.length_nil] at this
    omega
  simp only [analyzeCodeWithChunking] at hok
  rw [if_neg (by omega)] at hok
  have hok' : combineChunkResults (chunkResults analyze code) path
      (chunk_code code 800 100).length = some out := hok
  unfold combineChunkResults at hok'
  split at hok'
  · rename_i adjusted cq mq sq pq hadj hc hm hs hp
    simp only [Option.some.injEq] at hok'
    subst hok'
    constructor
    · simp only
      rw [combinedMetricField_spec _ _ _ hc hRne, combinedMetricField_spec _ _ _ hm hRne,
        combinedMetricField_spec _ _ _ hs hRne, combinedMetricField_spec _ _ _ hp hRne]
    · intro i r hir kvs q hkvs hline
      rcases mapMOpt_mem _ _ _ hadj (i, r) hir with ⟨b, hb, hbmem⟩
      have hri : ∃ l, r.issues = Json.arr l ∧ Json.obj kvs ∈ l := by
        rcases h : r.issues with s | n | bb | _ | es | o <;> rw [h] at hkvs <;>
          simp [issuesArr] at hkvs
        · exact ⟨es, rfl, by simpa [issuesArr] using hkvs⟩
      rcases hri with ⟨l, hl, hmem⟩
      rw [show adjustChunkIssues i r = mapMOpt (adjustIssue ((i : ℚ) * 800)) l by
        simp [adjustChunkIssues, hl]] at hb
      rcases mapMOpt_mem _ _ _ hb (Json.obj kvs) hmem with ⟨b', hb', hb'mem⟩
      have : b' = Json.obj (updateKV kvs (strC "line") (Json.num (q + (i : ℚ) * 800))) := by
        simp only [adjustIssue, hline] at hb'
        simpa using hb'.symm
      subst this
      simp only [issuesArr]
      exact List.mem_append_left _ (List.mem_flatten.mpr ⟨b, hbmem, hb'mem⟩)
  · simp at hok'

/-! ## Witness infrastructure for the reconciliation claim -/

theorem witLineA_no_nl : '\n' ∉ witLineA := by
  unfold witLineA
  intro h
  exact absurd (List.mem_replicate.mp h).2 (by decide)

theorem witLineB_no_nl : '\n' ∉ witLineB := by
  unfold witLineB
  intro h
  exact absurd (List.mem_replicate.mp h).2 (by decide)

theorem witLineC_no_nl : '\n' ∉ witLineC := by
  unfold witLineC
  intro h
  exact absurd (List.mem_replicate.mp h).2 (by decide)

theorem witCode4_split : splitOnNl witCode4 = [witLineA, witLineB, witLineC] := by
  unfold witCode4
  rw [splitOnNl_append_nl _ _ witLineA_no_nl, splitOnNl_append_nl _ _ witLineB_no_nl,
    splitOnNl_no_nl _ witLineC_no_nl]

theorem tokens_witLineA : tokens witLineA = 410 := by
  unfold witLineA tokens
  rw [List.length_replicate]

theorem tokens_witLineB : tokens witLineB = 410 := by
  unfold witLineB tokens
  rw [List.length_replicate]

theorem tokens_witLineC : tokens witLineC = 410 := by
  unfold witLineC tokens
  rw [List.length_replicate]

theorem sumTokens_nil : sumTokens [] = 0 := rfl

theorem overlapLines_single_big (a : List Char) (ov : Nat) (h : ov < tokens a) :
    overlapLines [a] ov = [] := by
  unfold overlapLines
  rw [List.reverse_singleton]
  simp only [takeWhileBudget]
  rw [if_neg (by omega)]
  rfl

theorem staleTok_single (a : List Char) (budget lt0 : Nat) :
    staleTok [a] budget lt0 = tokens a := by
  simp only [staleTok, List.reverse_singleton, staleLineTokens]
  split <;> rfl

theorem chunkAux_three (maxT ov : Nat) (a b c : List Char)
    (hab : maxT < tokens a + tokens b) (hac : maxT < tokens a + tokens c)
    (hoa : ov < tokens a) (hob : ov < tokens b) :
    chunkAux maxT ov [a, b, c] [] 0 [] = [[a], [b], [c]] := by
  simp only [chunkAux, List.nil_append]
  rw [if_neg (fun h => h.2 rfl)]
  rw [if_pos ⟨by omega, by simp⟩]
  rw [overlapLines_single_big a ov hoa, staleTok_single a ov (tokens b)]
  simp only [List.nil_append, sumTokens_nil]
  rw [if_pos ⟨by omega, by simp⟩]
  rw [overlapLines_single_big b ov hob]
  simp

theorem witChunks : chunk_code witCode4 800 100 = [witLineA, witLineB, witLineC] := by
  rw [chunk_code_eq_map]
  unfold chunkLines
  rw [witCode4_split]
  rw [chunkAux_three 800 100 witLineA witLineB witLineC
    (by rw [tokens_witLineA, tokens_witLineB]; norm_num)
    (by rw [tokens_witLineA, tokens_witLineC]; norm_num)
    (by rw [tokens_witLineA]; norm_num)
    (by rw [tokens_witLineB]; norm_num)]
  simp [joinNl]

theorem wit4_results :
    (withIdxFrom 0 [witLineA, witLineB, witLineC]).map (fun p => demoChunkAnalysis p.1 p.2) =
      [demoRes 5, demoRes 6, demoRes 7] := by
  simp +decide [withIdxFrom, demoChunkAnalysis, demoRes]

theorem wit4_adjusted :
    mapMOpt (fun p => adjustChunkIssues p.1 p.2)
      (withIdxFrom 0 [demoRes 5, demoRes 6, demoRes 7]) =
      some [[Json.obj [(strC "type", Json.str (strC "security")), (strC "line", Json.num 1)]],
            [Json.obj [(strC "type", Json.str (strC "security")), (strC "line", Json.num 801)]],
            [Json.obj [(strC "type", Json.str (strC "security")), (strC "line", Json.num 1601)]]] := by
  norm_num +decide [mapMOpt, withIdxFrom, adjustChunkIssues, adjustIssue, lookupKV, updateKV, demoRes]

theorem wit4_complexity :
    combinedMetricField [demoRes 5, demoRes 6, demoRes 7] (strC "complexity_score") = some 5 := by
  norm_num +decide [combinedMetricField, mapMOpt, getMetricD, demoRes, lookupKV]

theorem wit4_maintainability :
    combinedMetricField [demoRes 5, demoRes 6, demoRes 7] (strC "maintainability_score") = some 5 := by
  norm_num +decide [combinedMetricField, mapMOpt, getMetricD, demoRes, lookupKV]

theorem wit4_security :
    combinedMetricField [demoRes 5, demoRes 6, demoRes 7] (strC "security_score") = some 6 := by
  norm_num +decide [combinedMetricField, mapMOpt, getMetricD, demoRes, lookupKV]

theorem wit4_performance :
    combinedMetricField [demoRes 5, demoRes 6, demoRes 7] (strC "performance_score") = some 5 := by
  norm_num +decide [combinedMetricField, mapMOpt, getMetricD, demoRes, lookupKV]

theorem wit4_hok : analyzeCodeWithChunking demoChunkAnalysis witCode4 [] =
    some { issues := Json.arr
             ([Json.obj [(strC "type", Json.str (strC "security")), (strC "line", Json.num 1)],
               Json.obj [(strC "type", Json.str (strC "security")), (strC "line", Json.num 801)],
               Json.obj [(strC "type", Json.str (strC "security")), (strC "line", Json.num 1601)]] ++
              productionStandards)
           metrics := Json.obj
             [(strC "complexity_score", Json.num 5),
              (strC "maintainability_score", Json.num 5),
              (strC "security_score", Json.num 6),
              (strC "performance_score", Json.num 5)]
           filePath := []
           analysisType := strC "chunked_llm_analysis"
           summary := some (Json.str (strC "Analyzed 3 chunks, found 5 total issues")) } := by
  simp only [analyzeCodeWithChunking, witChunks]
  rw [if_neg (by simp)]
  rw [wit4_results]
  unfold combineChunkResults
  rw [wit4_adjusted, wit4_complexity, wit4_maintainability, wit4_security, wit4_performance]
  simp +decide [natToChars]

theorem wit4_chunkResults :
    chunkResults demoChunkAnalysis witCode4 = [demoRes 5, demoRes 6, demoRes 7] := by
  unfold chunkResults
  rw [witChunks, wit4_results]

theorem C4_witness :
    1 < (chunk_code witCode4 800 100).length ∧
    ∃ out, analyzeCodeWithChunking demoChunkAnalysis witCode4 [] = some out ∧
      out.metrics = Json.obj
        [(strC "complexity_score", Json.num 5),
         (strC "maintainability_score", Json.num 5),
         (strC "security_score", Json.num 6),
         (strC "performance_score", Json.num 5)] ∧
      Json.obj (updateKV [(strC "type", Json.str (strC "security")), (strC "line", Json.num 1)]
        (strC "line") (Json.num (1 + (1 : ℚ) * 800))) ∈ issuesArr out.issues := by
  have hmulti : 1 < (chunk_code witCode4 800 100).length := by rw [witChunks]; simp
  obtain ⟨hmet, hiss⟩ := C4_reconciliation demoChunkAnalysis witCode4 [] _ hmulti wit4_hok
  refine ⟨hmulti, _, wit4_hok, ?_, ?_⟩
  · rw [hmet, wit4_chunkResults]
    norm_num +decide [specMeanMetric, getMetricD, demoRes, lookupKV]
  · refine hiss 1 (demoRes 6) ?_
      [(strC "type", Json.str (strC "security")), (strC "line", Json.num 1)] 1 ?_ ?_
    · rw [wit4_chunkResults]
      simp [withIdxFrom]
    · simp [demoRes, issuesArr]
    · simp +decide [lookupKV]
